import Mathlib

/-!
# Verification of the Qurio deep-research orchestration engine

Shallow embedding of `src/backend-python/src/services/deep_research.py` and the
JSON helper `safe_json_parse` of `src/backend-python/src/services/llm_utils.py`.

Modelling conventions:
* Python JSON-like values are `JValue`; Python `dict`s are association lists
  with Python `dict` semantics: assignment to an existing key replaces the
  value in place (keeping the key's position), new keys are appended.
* `json.loads` is embedded as `jsonLoads`, a fuel-based recursive-descent
  parser of RFC 8259 JSON extended with Python's default `NaN`/`Infinity`
  acceptance.  Numbers keep their lexeme.  `ast.literal_eval` is embedded as
  `pyLiteralEval` for the literal shapes the engine can meet (strings with
  either quote character, numbers, `True`/`False`/`None`, lists, dicts with
  string keys); exotic literals (sets, tuples, hex ints, string concatenation)
  make the embedded parser fail where CPython may succeed with a value the
  engine then discards or cannot use as a plan.
* `time.time()` is modelled by attaching an arrival timestamp (in ms) to each
  workflow event; `uuid.uuid4().hex[:8]` is modelled by an external supply
  `uuidHex : Nat → String` consumed at a monotonically increasing index.
* Exceptions escaping a handler are modelled with `Except`.
-/

namespace Qurio

/-- ASCII whitespace stripped by Python `str.strip()` (the engine only ever
strips model output, where the ASCII fragment is what occurs). -/
def isPySpace (c : Char) : Bool :=
  c = ' ' || c = '\t' || c = '\n' || c = '\r' || c = '\x0b' || c = '\x0c'

/-- Python `str.strip()`. -/
def pyStrip (s : String) : String :=
  String.mk (((s.data.dropWhile isPySpace).reverse.dropWhile isPySpace).reverse)

/-- Python `a or b` for strings (`a` if non-empty else `b`). -/
def pyOrStr (a b : String) : String :=
  if a = "" then b else a

/-- Python `a or b` where `a` is an optional string (`None`/empty falsy). -/
def pyOrOptStr (a : Option String) (b : String) : String :=
  match a with
  | some s => if s = "" then b else s
  | none => b

/-- Python `a or b` where `a` is an optional number (`None`/`0` falsy). -/
def pyOrOptNat (a : Option Nat) (b : Nat) : Nat :=
  match a with
  | some n => if n = 0 then b else n
  | none => b

/-- Truthiness of an optional string (`None` and `""` are falsy). -/
def optStrTruthy (a : Option String) : Bool :=
  match a with
  | some s => s ≠ ""
  | none => false

/-! ## Python `dict` with string keys (insertion-ordered association list) -/

/-- Python `d[k] = v`: replace in place if the key exists, else append. -/
def dinsert (k : String) (v : α) : List (String × α) → List (String × α)
  | [] => [(k, v)]
  | (k', v') :: rest =>
      if k' = k then (k, v) :: rest else (k', v') :: dinsert k v rest

/-- Python `d.get(k)`. -/
def dlookup (k : String) : List (String × α) → Option α
  | [] => none
  | (k', v') :: rest => if k' = k then some v' else dlookup k rest

/-- Python `del d[k]` (no-op when the key is absent). -/
def ddel (k : String) : List (String × α) → List (String × α)
  | [] => []
  | (k', v') :: rest => if k' = k then rest else (k', v') :: ddel k rest

/-- Python `k in d`. -/
def dmem (k : String) (d : List (String × α)) : Bool :=
  (dlookup k d).isSome

/-- Python `list(d.keys())[-1]` as an option. -/
def lastKey? (d : List (String × α)) : Option String :=
  (d.getLast?).map Prod.fst

/-- Mutate the value stored at the last key of a dict in place
(Python `list(d.values())[-1]` followed by in-place mutation). -/
def updateLastValue (f : α → α) : List (String × α) → List (String × α)
  | [] => []
  | [(k, v)] => [(k, f v)]
  | (k, v) :: rest => (k, v) :: updateLastValue f rest

/-! ## JSON / Python values -/

/-- JSON-like values as produced by `json.loads` / `ast.literal_eval`.
Numbers keep their source lexeme. -/
inductive JValue where
  | null
  | bool (b : Bool)
  | num (lexeme : String)
  | str (s : String)
  | arr (items : List JValue)
  | obj (fields : List (String × JValue))
  deriving Repr

mutual

/-- Structural equality of `JValue`s (Python `==` on parsed JSON values,
restricted to the shapes `JValue` can hold). -/
def jeq : JValue → JValue → Bool
  | .null, .null => true
  | .bool x, .bool y => x == y
  | .num x, .num y => x == y
  | .str x, .str y => x == y
  | .arr xs, .arr ys => jeqList xs ys
  | .obj xs, .obj ys => jeqObj xs ys
  | _, _ => false

def jeqList : List JValue → List JValue → Bool
  | [], [] => true
  | x :: xs, y :: ys => jeq x y && jeqList xs ys
  | _, _ => false

def jeqObj : List (String × JValue) → List (String × JValue) → Bool
  | [], [] => true
  | (k, v) :: xs, (k', v') :: ys => k == k' && jeq v v' && jeqObj xs ys
  | _, _ => false

end

/-- Python truthiness of the numeric lexeme of a JSON number: a JSON number is
falsy iff it denotes zero, i.e. its mantissa contains no digit `1`-`9`
(`NaN`/`Infinity` contain letters and are truthy). -/
def numTruthy (lexeme : String) : Bool :=
  (lexeme.data.takeWhile (fun c => c ≠ 'e' ∧ c ≠ 'E')).any
    (fun c => ('1' ≤ c ∧ c ≤ '9') ∨ c = 'N' ∨ c = 'I')

/-- Python truthiness of a `JValue`. -/
def pyTruthy : JValue → Bool
  | .null => false
  | .bool b => b
  | .num lex => numTruthy lex
  | .str s => s ≠ ""
  | .arr items => !items.isEmpty
  | .obj fields => !fields.isEmpty

/-! ## Python `dict` with `JValue` keys (for the source registry, whose keys
are whatever URL-like value a tool result carries) -/

/-- Python `d[k] = v` for a `JValue`-keyed dict. -/
def jinsert (k : JValue) (v : β) : List (JValue × β) → List (JValue × β)
  | [] => [(k, v)]
  | (k', v') :: rest =>
      if jeq k' k then (k, v) :: rest else (k', v') :: jinsert k v rest

/-- Python `d.get(k)` for a `JValue`-keyed dict. -/
def jlookup (k : JValue) : List (JValue × β) → Option β
  | [] => none
  | (k', v') :: rest => if jeq k' k then some v' else jlookup k rest

/-- Python `k in d` for a `JValue`-keyed dict. -/
def jmem (k : JValue) (d : List (JValue × β)) : Bool :=
  (jlookup k d).isSome

/-- Whether a `JValue` may be used as a Python `dict` key (hashable):
containers are unhashable and raise `TypeError`. -/
def jhashable : JValue → Bool
  | .arr _ => false
  | .obj _ => false
  | _ => true

/-! ## `json.loads` -/

/-- JSON insignificant whitespace. -/
def jsonWs (c : Char) : Bool :=
  c = ' ' || c = '\t' || c = '\n' || c = '\r'

def skipWs (cs : List Char) : List Char :=
  cs.dropWhile jsonWs

def hexVal (c : Char) : Option Nat :=
  if '0' ≤ c ∧ c ≤ '9' then some (c.toNat - '0'.toNat)
  else if 'a' ≤ c ∧ c ≤ 'f' then some (c.toNat - 'a'.toNat + 10)
  else if 'A' ≤ c ∧ c ≤ 'F' then some (c.toNat - 'A'.toNat + 10)
  else none

def isDigit (c : Char) : Bool := '0' ≤ c ∧ c ≤ '9'

/-- Decode a `\uXXXX` escape code unit (already parsed to `Nat`), combining a
valid surrogate pair with a following `\uXXXX`; lone surrogates (legal for
Python's parser, not representable as a Lean `Char`) decode to `NUL`. -/
def decodeUnicodeEscape (n : Nat) (rest : List Char) :
    Char × List Char :=
  if 0xD800 ≤ n ∧ n ≤ 0xDBFF then
    match rest with
    | '\\' :: 'u' :: a :: b :: c :: d :: rest' =>
        match hexVal a, hexVal b, hexVal c, hexVal d with
        | some ha, some hb, some hc, some hd =>
            let m := ((ha * 16 + hb) * 16 + hc) * 16 + hd
            if 0xDC00 ≤ m ∧ m ≤ 0xDFFF then
              (Char.ofNat (0x10000 + (n - 0xD800) * 0x400 + (m - 0xDC00)), rest')
            else (Char.ofNat 0, rest)
        | _, _, _, _ => (Char.ofNat 0, rest)
    | _ => (Char.ofNat 0, rest)
  else (Char.ofNat n, rest)

/-- Parse the body of a JSON string after the opening quote, in Python's
default strict mode (raw control characters below `0x20` are rejected).
Returns the decoded content and the remaining input after the closing quote.
The quote character is a parameter so that `pyLiteralEval` can reuse this for
single-quoted Python strings.  Fuel-based so that it reduces in the kernel;
every recursive call consumes at least one input character. -/
def pstring (q : Char) : Nat → List Char → Option (List Char × List Char)
  | 0, _ => none
  | _, [] => none
  | fuel + 1, c :: rest =>
      if c = q then some ([], rest)
      else if c = '\\' then
        match rest with
        | [] => none
        | e :: rest' =>
            let cont (decoded : Char) (after : List Char) :
                Option (List Char × List Char) :=
              match pstring q fuel after with
              | some (content, fin) => some (decoded :: content, fin)
              | none => none
            if e = 'u' then
              match rest' with
              | a :: b :: c' :: d :: rest'' =>
                  match hexVal a, hexVal b, hexVal c', hexVal d with
                  | some ha, some hb, some hc, some hd =>
                      let n := ((ha * 16 + hb) * 16 + hc) * 16 + hd
                      let (ch, after) := decodeUnicodeEscape n rest''
                      cont ch after
                  | _, _, _, _ => none
              | _ => none
            else if e = '"' then cont '"' rest'
            else if e = '\'' then cont '\'' rest'
            else if e = '\\' then cont '\\' rest'
            else if e = '/' then cont '/' rest'
            else if e = 'b' then cont '\x08' rest'
            else if e = 'f' then cont '\x0c' rest'
            else if e = 'n' then cont '\n' rest'
            else if e = 'r' then cont '\r' rest'
            else if e = 't' then cont '\t' rest'
            else none
      else if c.toNat < 0x20 then none
      else
        match pstring q fuel rest with
        | some (content, fin) => some (c :: content, fin)
        | none => none

/-- Lex a JSON number starting at the current position, returning its lexeme.
Grammar: `-? (0 | [1-9][0-9]*) (. [0-9]+)? ([eE] [+-]? [0-9]+)?`. -/
def pnumber (cs : List Char) : Option (List Char × List Char) :=
  let (sign, cs1) :=
    match cs with
    | '-' :: rest => (['-'], rest)
    | _ => (([] : List Char), cs)
  match cs1 with
  | [] => none
  | c :: rest =>
      if ¬ isDigit c then none
      else
        let (intRest, cs2) :=
          if c = '0' then (([] : List Char), rest)
          else (rest.takeWhile isDigit, rest.dropWhile isDigit)
        let intPart := c :: intRest
        let (fracPart, cs3) :=
          match cs2 with
          | '.' :: afterDot =>
              let ds := afterDot.takeWhile isDigit
              if ds = [] then ([], cs2)
              else ('.' :: ds, afterDot.dropWhile isDigit)
          | _ => (([] : List Char), cs2)
        let (expPart, cs4) :=
          match cs3 with
          | e :: afterE =>
              if e = 'e' ∨ e = 'E' then
                let (sgn, afterSign) :=
                  match afterE with
                  | '+' :: r => (['+'], r)
                  | '-' :: r => (['-'], r)
                  | _ => (([] : List Char), afterE)
                let ds := afterSign.takeWhile isDigit
                if ds = [] then (([] : List Char), cs3)
                else (e :: (sgn ++ ds), afterSign.dropWhile isDigit)
              else (([] : List Char), cs3)
          | _ => (([] : List Char), cs3)
        -- a fraction with no digits or an exponent with no digits ends the
        -- number before that suffix only when the suffix is absent; Python's
        -- lexer rejects `1.` and `1e`, mirrored by failing on a dangling suffix
        match cs2 with
        | '.' :: afterDot =>
            if afterDot.takeWhile isDigit = [] then none
            else finish (sign ++ intPart ++ fracPart ++ expPart) cs4
        | _ => finish (sign ++ intPart ++ fracPart ++ expPart) cs4
  where
    finish (lex : List Char) (rest : List Char) :
        Option (List Char × List Char) :=
      some (lex, rest)

mutual

/-- Recursive-descent JSON value parser (fuel-based; the fuel is an upper
bound on recursion depth, each recursive call consumes input). -/
def pvalue : Nat → List Char → Option (JValue × List Char)
  | 0, _ => none
  | fuel + 1, cs =>
      match skipWs cs with
      | [] => none
      | c :: rest =>
          if c = '{' then
            match skipWs rest with
            | '}' :: rest' => some (.obj [], rest')
            | _ => pmembers fuel rest []
          else if c = '[' then
            match skipWs rest with
            | ']' :: rest' => some (.arr [], rest')
            | _ => pelements fuel rest []
          else if c = '"' then
            match pstring '"' (rest.length + 1) rest with
            | some (content, fin) => some (.str (String.mk content), fin)
            | none => none
          else if c = 't' then
            match rest with
            | 'r' :: 'u' :: 'e' :: rest' => some (.bool true, rest')
            | _ => none
          else if c = 'f' then
            match rest with
            | 'a' :: 'l' :: 's' :: 'e' :: rest' => some (.bool false, rest')
            | _ => none
          else if c = 'n' then
            match rest with
            | 'u' :: 'l' :: 'l' :: rest' => some (.null, rest')
            | _ => none
          else if c = 'N' then
            match rest with
            | 'a' :: 'N' :: rest' => some (.num "NaN", rest')
            | _ => none
          else if c = 'I' then
            match rest with
            | 'n' :: 'f' :: 'i' :: 'n' :: 'i' :: 't' :: 'y' :: rest' =>
                some (.num "Infinity", rest')
            | _ => none
          else if c = '-' then
            match rest with
            | 'I' :: 'n' :: 'f' :: 'i' :: 'n' :: 'i' :: 't' :: 'y' :: rest' =>
                some (.num "-Infinity", rest')
            | _ =>
                match pnumber (c :: rest) with
                | some (lex, fin) => some (.num (String.mk lex), fin)
                | none => none
          else
            match pnumber (c :: rest) with
            | some (lex, fin) => some (.num (String.mk lex), fin)
            | none => none

/-- Parse the members of a JSON object (after `{`, at least one member);
duplicate keys follow Python `dict` semantics (last value wins, first
position kept). -/
def pmembers : Nat → List Char → List (String × JValue) →
    Option (JValue × List Char)
  | 0, _, _ => none
  | fuel + 1, cs, acc =>
      match skipWs cs with
      | '"' :: rest =>
          match pstring '"' (rest.length + 1) rest with
          | some (key, afterKey) =>
              match skipWs afterKey with
              | ':' :: afterColon =>
                  match pvalue fuel afterColon with
                  | some (v, afterVal) =>
                      let acc' := dinsert (String.mk key) v acc
                      match skipWs afterVal with
                      | ',' :: afterComma => pmembers fuel afterComma acc'
                      | '}' :: rest' => some (.obj acc', rest')
                      | _ => none
                  | none => none
              | _ => none
          | none => none
      | _ => none

/-- Parse the elements of a JSON array (after `[`, at least one element). -/
def pelements : Nat → List Char → List JValue → Option (JValue × List Char)
  | 0, _, _ => none
  | fuel + 1, cs, acc =>
      match pvalue fuel cs with
      | some (v, afterVal) =>
          match skipWs afterVal with
          | ',' :: afterComma => pelements fuel afterComma (acc ++ [v])
          | ']' :: rest' => some (.arr (acc ++ [v]), rest')
          | _ => none
      | none => none

end

/-- `json.loads` (Python default flags): parse one JSON value, allowing
surrounding whitespace, requiring the whole input to be consumed. -/
def jsonLoads (s : String) : Option JValue :=
  match pvalue (2 * s.data.length + 2) s.data with
  | some (v, rest) => if skipWs rest = [] then some v else none
  | none => none

/-! ## `ast.literal_eval`

Embedded for the literal shapes the engine can meet: strings with either
quote character, signed decimal numbers (including `1.` and `.5`), `True`,
`False`, `None`, lists and dicts with string keys, with Python's trailing
commas.  Sets, tuples, hex/underscore numerals, raw strings and implicit
string concatenation make the embedded parser fail; on those inputs CPython
yields a value that the callers of `safe_json_parse`/`parse_plan` either
discard (`isinstance` checks) or cannot use as a plan. -/

def plWs (c : Char) : Bool :=
  c = ' ' || c = '\t' || c = '\n' || c = '\r' || c = '\x0c'

def skipPlWs (cs : List Char) : List Char :=
  cs.dropWhile plWs

/-- Lex a Python decimal number literal (after an optional sign), returning
its lexeme.  Accepts `1`, `1.`, `.5`, `1.5e-3`, leading zeros. -/
def plnumber (cs : List Char) : Option (List Char × List Char) :=
  let (sign, cs1) :=
    match cs with
    | '-' :: rest => (['-'], rest)
    | '+' :: rest => (['+'], rest)
    | _ => (([] : List Char), cs)
  let intDigits := cs1.takeWhile isDigit
  let cs2 := cs1.dropWhile isDigit
  let (fracPart, cs3) :=
    match cs2 with
    | '.' :: afterDot =>
        ('.' :: afterDot.takeWhile isDigit, afterDot.dropWhile isDigit)
    | _ => (([] : List Char), cs2)
  if intDigits = [] ∧ (fracPart = [] ∨ fracPart = ['.']) then none
  else
    let (expPart, cs4) :=
      match cs3 with
      | e :: afterE =>
          if e = 'e' ∨ e = 'E' then
            let (sgn, afterSign) :=
              match afterE with
              | '+' :: r => (['+'], r)
              | '-' :: r => (['-'], r)
              | _ => (([] : List Char), afterE)
            let ds := afterSign.takeWhile isDigit
            if ds = [] then (([] : List Char), cs3)
            else (e :: (sgn ++ ds), afterSign.dropWhile isDigit)
          else (([] : List Char), cs3)
      | _ => (([] : List Char), cs3)
    some (sign ++ intDigits ++ fracPart ++ expPart, cs4)

mutual

/-- Recursive-descent parser for the supported Python literals. -/
def plvalue : Nat → List Char → Option (JValue × List Char)
  | 0, _ => none
  | fuel + 1, cs =>
      match skipPlWs cs with
      | [] => none
      | c :: rest =>
          if c = '{' then
            match skipPlWs rest with
            | '}' :: rest' => some (.obj [], rest')
            | _ => plmembers fuel rest []
          else if c = '[' then
            match skipPlWs rest with
            | ']' :: rest' => some (.arr [], rest')
            | _ => plelements fuel rest []
          else if c = '"' ∨ c = '\'' then
            match pstring c (rest.length + 1) rest with
            | some (content, fin) => some (.str (String.mk content), fin)
            | none => none
          else if c = 'T' then
            match rest with
            | 'r' :: 'u' :: 'e' :: rest' => some (.bool true, rest')
            | _ => none
          else if c = 'F' then
            match rest with
            | 'a' :: 'l' :: 's' :: 'e' :: rest' => some (.bool false, rest')
            | _ => none
          else if c = 'N' then
            match rest with
            | 'o' :: 'n' :: 'e' :: rest' => some (.null, rest')
            | _ => none
          else
            match plnumber (c :: rest) with
            | some (lex, fin) => some (.num (String.mk lex), fin)
            | none => none

/-- Members of a Python dict literal (string keys only in this model);
trailing commas allowed, duplicate keys follow dict semantics. -/
def plmembers : Nat → List Char → List (String × JValue) →
    Option (JValue × List Char)
  | 0, _, _ => none
  | fuel + 1, cs, acc =>
      match plvalue fuel cs with
      | some (.str key, afterKey) =>
          match skipPlWs afterKey with
          | ':' :: afterColon =>
              match plvalue fuel afterColon with
              | some (v, afterVal) =>
                  let acc' := dinsert key v acc
                  match skipPlWs afterVal with
                  | ',' :: afterComma =>
                      match skipPlWs afterComma with
                      | '}' :: rest' => some (.obj acc', rest')
                      | _ => plmembers fuel afterComma acc'
                  | '}' :: rest' => some (.obj acc', rest')
                  | _ => none
              | none => none
          | _ => none
      | _ => none

/-- Elements of a Python list literal; trailing commas allowed. -/
def plelements : Nat → List Char → List JValue → Option (JValue × List Char)
  | 0, _, _ => none
  | fuel + 1, cs, acc =>
      match plvalue fuel cs with
      | some (v, afterVal) =>
          match skipPlWs afterVal with
          | ',' :: afterComma =>
              match skipPlWs afterComma with
              | ']' :: rest' => some (.arr (acc ++ [v]), rest')
              | _ => plelements fuel afterComma (acc ++ [v])
          | ']' :: rest' => some (.arr (acc ++ [v]), rest')
          | _ => none
      | none => none

end

/-- `ast.literal_eval` on the supported literal fragment. -/
def pyLiteralEval (s : String) : Option JValue :=
  match plvalue (2 * s.data.length + 2) s.data with
  | some (v, rest) => if skipPlWs rest = [] then some v else none
  | none => none

/-! ## `json.dumps` (default separators, `ensure_ascii=False`) -/

def hexDigit (n : Nat) : Char :=
  if n < 10 then Char.ofNat ('0'.toNat + n) else Char.ofNat ('a'.toNat + n - 10)

/-- Escape one character of a JSON string per `json.dumps`
(`ensure_ascii=False`: non-ASCII characters are kept raw). -/
def escapeJsonChar (c : Char) : List Char :=
  if c = '"' then ['\\', '"']
  else if c = '\\' then ['\\', '\\']
  else if c = '\n' then ['\\', 'n']
  else if c = '\r' then ['\\', 'r']
  else if c = '\t' then ['\\', 't']
  else if c = '\x08' then ['\\', 'b']
  else if c = '\x0c' then ['\\', 'f']
  else if c.toNat < 0x20 then
    ['\\', 'u', '0', '0', hexDigit (c.toNat / 16), hexDigit (c.toNat % 16)]
  else [c]

def dumpString (s : String) : String :=
  String.mk ('"' :: s.data.flatMap escapeJsonChar ++ ['"'])

mutual

/-- `json.dumps` with default separators `", "` and `": "`.  Numbers are
serialized by their lexeme (CPython re-prints the parsed `int`/`float`, which
agrees on plain decimal lexemes and differs only in normalization of exotic
ones such as `1e2`; no claim inspects serialized numbers). -/
def dumps : JValue → String
  | .null => "null"
  | .bool true => "true"
  | .bool false => "false"
  | .num lexeme => lexeme
  | .str s => dumpString s
  | .arr items => "[" ++ dumpList items ++ "]"
  | .obj fields => "\x7b" ++ dumpFields fields ++ "\x7d"

def dumpList : List JValue → String
  | [] => ""
  | [v] => dumps v
  | v :: rest => dumps v ++ ", " ++ dumpList rest

def dumpFields : List (String × JValue) → String
  | [] => ""
  | [(k, v)] => dumpString k ++ ": " ++ dumps v
  | (k, v) :: rest => dumpString k ++ ": " ++ dumps v ++ ", " ++ dumpFields rest

end

/-! ## `llm_utils.safe_json_parse` -/

/-- Index of the first occurrence of `c` (Python `str.find`, as an option). -/
def firstIdxOf? (c : Char) : List Char → Option Nat
  | [] => none
  | x :: rest =>
      if x = c then some 0
      else (firstIdxOf? c rest).map (· + 1)

/-- Index of the last occurrence of `c` (Python `str.rfind`, as an option). -/
def lastIdxOf? (c : Char) (cs : List Char) : Option Nat :=
  (firstIdxOf? c cs.reverse).map (fun i => cs.length - 1 - i)

/-- The substring `s[find(o) : rfind(c) + 1]` when `find(o) != -1`,
`rfind(c) != -1` and `rfind(c) > find(o)` — the bracket-extraction step of
`safe_json_parse`. -/
def extractDelimited (o c : Char) (s : String) : Option String :=
  match firstIdxOf? o s.data, lastIdxOf? c s.data with
  | some i, some j =>
      if i < j then some (String.mk ((s.data.drop i).take (j + 1 - i)))
      else none
  | _, _ => none

/-- Python `s.startswith(c)` for a single-character needle. -/
def startsWithChar (c : Char) (s : String) : Bool :=
  match s.data with
  | x :: _ => x = c
  | [] => false

/-- `llm_utils.safe_json_parse`: best-effort JSON parse with cleanup
fallbacks, returning `None` instead of raising.  (`text` is always a `str`
here, so the `isinstance` guard reduces to the emptiness check.) -/
def safe_json_parse (text : String) : Option JValue :=
  if text = "" then none
  else
    let stripped := pyStrip text
    if stripped = "" then none
    else
      match jsonLoads stripped with
      | some v => some v
      | none =>
          match
            (match extractDelimited '{' '}' stripped with
             | some sub => jsonLoads sub
             | none => none)
          with
          | some v => some v
          | none =>
              match
                (match extractDelimited '[' ']' stripped with
                 | some sub => jsonLoads sub
                 | none => none)
              with
              | some v => some v
              | none =>
                  if startsWithChar '\x7b' stripped ∨ startsWithChar '[' stripped then
                    match pyLiteralEval stripped with
                    | some (.obj fields) => some (.obj fields)
                    | some (.arr items) => some (.arr items)
                    | _ => none
                  else none

/-! ## `deep_research.parse_plan` -/

/-- The synthetic fallback step of `parse_plan` (source lines 47–55). -/
def fallbackPlanStep : List (String × JValue) :=
  [("step", .num "1"),
   ("action", .str "Summarize the topic and gather key evidence."),
   ("expected_output", .str "A concise summary with evidence."),
   ("deliverable_format", .str "paragraph"),
   ("acceptance_criteria", .arr []),
   ("depth", .str "medium"),
   ("requires_search", .bool true)]

/-- The fallback plan dict returned by `parse_plan` on missing or
unusable input. -/
def fallbackPlan : List (String × JValue) :=
  [("goal", .str ""),
   ("assumptions", .arr []),
   ("question_type", .str "analysis"),
   ("plan", .arr [.obj fallbackPlanStep])]

/-- `isinstance(x, list)` on an optional `JValue`. -/
def isJList : Option JValue → Bool
  | some (.arr _) => true
  | _ => false

/-- `deep_research.parse_plan`: parse the plan text, returning the parsed
dict when it is a dict with a list-valued `"plan"` key, else the fallback
plan.  `plan_text or ""` collapses `None` and `""` to `""`. -/
def parse_plan (planText : Option String) : List (String × JValue) :=
  match safe_json_parse (pyOrOptStr planText "") with
  | some (.obj fields) =>
      if isJList (dlookup "plan" fields) then fields else fallbackPlan
  | _ => fallbackPlan

/-! ## `deep_research.build_sources_list` -/

/-- Python `str()` of a parsed JSON value, as interpolated into f-strings.
(For containers CPython prints the Python repr with single quotes; the engine
only ever displays strings here, so JSON serialization stands in.) -/
def pyToStr : JValue → String
  | .str s => s
  | .num lexeme => lexeme
  | .bool true => "True"
  | .bool false => "False"
  | .null => "None"
  | .arr items => dumps (.arr items)
  | .obj fields => dumps (.obj fields)

/-- Python `d.get(k)` on a `JValue` that is a dict.  (On a non-dict CPython
raises `AttributeError`; the callers below only reach this with dict values,
see the respective comments.) -/
def jget (v : JValue) (k : String) : Option JValue :=
  match v with
  | .obj fields => dlookup k fields
  | _ => none

/-- Python `a or b or ... or default` over optional values with Python
truthiness (`d.get(k)` returning `None` is falsy). -/
def firstTruthyJ (cands : List (Option JValue)) (dflt : JValue) : JValue :=
  match cands with
  | [] => dflt
  | some v :: rest => if pyTruthy v then v else firstTruthyJ rest dflt
  | none :: rest => firstTruthyJ rest dflt

def buildSourcesListAux : Nat → List JValue → List String
  | _, [] => []
  | idx, source :: rest =>
      let title := pyToStr (firstTruthyJ
        [jget source "title", jget source "url", jget source "uri"]
        (.str ("Source " ++ toString idx)))
      let url := pyToStr (firstTruthyJ
        [jget source "url", jget source "uri"] (.str ""))
      pyStrip ("[" ++ toString idx ++ "] " ++ title ++ " " ++ url)
        :: buildSourcesListAux (idx + 1) rest

/-- `deep_research.build_sources_list`: the numbered citation lines derived
from the source registry, in registry order, numbered from 1. -/
def build_sources_list (sourcesMap : List (JValue × JValue)) : List String :=
  buildSourcesListAux 1 (sourcesMap.map Prod.snd)

/-! ## Outbound events (the `OutboundEvent` union of the spec; one
constructor per `yield`ed dict shape of `deep_research.py`).  `Option` fields
stand for dict keys that are either absent or `None` in the source; no claim
distinguishes an absent key from a `None` value. -/

inductive OutEvent where
  | researchStep (step total : Nat) (title status : String)
      (durationMs : Option Nat) (error : Option String)
  | stepContent (step : Nat) (content : String)
  | stepOutput (step : Nat) (content : String)
  | toolCall (id name : String) (arguments : JValue) (step total : Nat)
  | toolResult (id name status : String) (durationMs : Option Nat)
      (output : Option String) (error : Option String) (step total : Nat)
  | workflowCompletedEv (content : String)
  | textEv (content : String)
  | doneEv (content : String) (sources : Option (List JValue))
  | errorEv (error : String)
  deriving Repr

/-- `deep_research.build_research_step_event` (the `error` argument is the
`str()` of the exception when present). -/
def build_research_step_event (stepIndex total : Nat) (title status : String)
    (durationMs : Option Nat) (error : Option String) : OutEvent :=
  .researchStep (stepIndex + 1) total title status durationMs error

/-! ## Prompt constants (`src/backend-python/src/prompts/deep_research_prompts.py`) -/

/-- Prompt constant `GENERAL_FINAL_REPORT_PROMPT` of `src/backend-python/src/prompts/deep_research_prompts.py`. -/
def GENERAL_FINAL_REPORT_PROMPT : String :=
  "You are a deep research writer producing a comprehensive, evidence-driven report.\n\n## Report Requirements\n\n1. **Structure**\n   - Use clear headings that reflect the research plan\n   - Each plan item must have a dedicated section\n   - Organize content logically (context → analysis → conclusions)\n\n2. **Content Depth**\n   - Be comprehensive: cover all important aspects\n   - Be evidence-based: support claims with sources when available\n   - Be actionable: provide clear conclusions and recommendations\n   - Adapt structure to the content, don't follow a fixed template\n\n3. **Evidence & Citations**\n   - Every factual claim should be backed by evidence\n   - Cite sources as [1], [2], [3] based on the Sources list\n   - Note uncertainty when evidence is incomplete\n\n4. **Quality Check**\n   - Include a 'Self-check' section at the end with 3-5 bullets\n   - Verify all major claims have supporting evidence\n   - Highlight any knowledge gaps or limitations\n\n5. **Language**\n   - Clear, professional tone\n   - Match the user's language\n   - Use precise terminology appropriate to the topic\n"

/-- Prompt constant `ACADEMIC_FINAL_REPORT_PROMPT` of `src/backend-python/src/prompts/deep_research_prompts.py`. -/
def ACADEMIC_FINAL_REPORT_PROMPT : String :=
  "You are writing an academic research report based on a systematic literature review.\n\nREPORT STRUCTURE:\n\nYour report MUST follow this academic structure:\n\n# [Insert Report Title Here]\n\n## 1. ABSTRACT (150-250 words)\n   - Brief summary of research question, methods, key findings, and implications\n   - Written last, but appears first\n\n## 2. INTRODUCTION\n   - Background and context for the research question\n   - Significance and relevance of the topic\n   - Clear statement of research objectives/questions\n   - Scope and limitations of the review\n\n## 3. METHODOLOGY (if applicable)\n   - Search strategy (databases, keywords, timeframe)\n   - Inclusion/exclusion criteria\n   - Quality assessment approach\n   - Data extraction and synthesis methods\n\n## 4. LITERATURE REVIEW / FINDINGS\n   Organize thematically (NOT source-by-source):\n   - Group findings by major themes or subtopics\n   - For each theme:\n     * Synthesize what multiple sources say\n     * Cite all relevant sources [1][2][3]\n     * Note consensus and disagreements\n     * Assess quality of evidence\n   - Present conflicting findings objectively\n   - Distinguish between well-established and preliminary findings\n\n## 5. DISCUSSION\n   - Interpret the synthesized findings\n   - Compare with broader theoretical frameworks\n   - Address research questions posed in introduction\n   - Note implications for theory and practice\n   - Acknowledge limitations of the evidence base:\n     * Methodological limitations of cited studies\n     * Gaps in coverage (populations, contexts, outcomes)\n     * Potential publication bias\n   - Discuss areas of uncertainty or ongoing debate\n\n## 6. CONCLUSION\n   - Summarize key findings and their significance\n   - Highlight main contributions of this review\n   - Suggest directions for future research\n   - Provide actionable recommendations (if appropriate)\n\n## 7. REFERENCES\n   - **MANDATORY**: This section must ONLY contain sources listed in the \"Sources\" block provided above.\n   - **NO OMISSIONS**: Include every source you cited in the text.\n   - **NO ADDITIONS**: Do NOT add any external books, papers, or links that are not in the provided Source list.\n   - Format: \"[index] Title. URL\" (Copy exactly from the Source list).\n\nACADEMIC WRITING STANDARDS:\n\n- **Tone**: Formal, objective, third-person\n- **Language**: Precise terminology, appropriate hedging\n- **Citations**: Every factual claim must have a citation\n- **Evidence hierarchy**: Note study designs and sample sizes\n- **Critical thinking**: Evaluate rather than just summarize\n- **Synthesis**: Integrate across sources, don't just list findings\n- **Limitations**: Always acknowledge what is NOT known\n\nQUALITY CHECKLIST:\n- [ ] Every factual claim is cited\n- [ ] Sources are critically evaluated, not just reported\n- [ ] Conflicting evidence is presented fairly\n- [ ] Limitations are explicitly discussed\n- [ ] Implications for future research are clear\n- [ ] Academic tone is maintained throughout\n\nNEGATIVE CONSTRAINTS (CRITICAL):\n- **NO EXTERNAL KNOWLEDGE**: You must ONLY use the information provided in the \"Sources\" section. Do not use outside knowledge to fill gaps.\n- **NO HALLUCINATION**: If the provided sources do not contain the answer, explicitly state \"The provided sources do not contain information about X\". DO NOT make up facts, authors, or years.\n- **STRICT CITATION**: Every single paragraph must contain at least one citation [x].\n- **NO SYNTHETIC SOURCES**: Do not invent source titles or links. Use the [index] exactly as listed in the \"Sources\" section.\n\nHALLUCINATION CHECK:\nBefore writing each sentence, ask: \"Is this fact present in source [x]?\" If no, delete it.\nIf you violate these constraints, the task is considered failed.\n\nProduce a comprehensive, publication-quality academic report.\n"

/-- Prompt constant `GENERAL_STEP_AGENT_PROMPT` of `src/backend-python/src/prompts/deep_research_prompts.py`. -/
def GENERAL_STEP_AGENT_PROMPT : String :=
  "You are executing a deep research step.\n\n## Instructions\n\n### Research Approach\n- Be comprehensive: cover all important aspects relevant to this step\n- Be evidence-based: gather and cite sources when available\n- Build upon previous step findings if available\n- Return a clear, structured output matching the deliverable format\n\n### Evidence & Sources\n- Use Tavily_web_search for gathering current information\n- Cite sources as [1], [2], [3] based on the sources list\n- Note uncertainty when evidence is incomplete or conflicting\n\n### Content Quality\n- Use clear headings and logical flow\n- Provide sufficient depth appropriate to the specified depth level\n- Support claims with reasoning or citations\n- Be actionable and practical in conclusions\n"

/-- Prompt constant `ACADEMIC_STEP_AGENT_PROMPT` of `src/backend-python/src/prompts/deep_research_prompts.py`. -/
def ACADEMIC_STEP_AGENT_PROMPT : String :=
  "You are executing an academic research step with scholarly rigor.\n\n## CRITICAL ACADEMIC REQUIREMENTS:\n\n### Source Quality\n- Prioritize peer-reviewed journal articles\n- Report venue, year, and authors when available\n- Distinguish primary research from reviews/secondary sources\n\n### Evidence and Citation\n- EVERY factual claim must have citations [1], [2], etc.\n- Provide sufficient context for each citation\n- Use citations to support arguments, not replace analysis\n\n### Critical Evaluation\n- Assess methodology, sample sizes, and study validity\n- Note limitations, biases, and potential confounds\n- Consider alternative interpretations\n\n### Scholarly Language\n- Formal academic tone, third-person perspective\n- Use hedging language: \"suggests\", \"indicates\", \"may\", \"potentially\"\n- Precise technical terminology\n- Avoid colloquialisms and informal expressions\n\n### Tool Usage\n- Use Tavily_academic_search for literature gathering\n- Cite sources as [index] based on the sources list order\n"

/-! ## `deep_research.build_final_report_prompt` -/

/-- `deep_research.build_final_report_prompt`. -/
def build_final_report_prompt (planMeta : List (String × JValue))
    (question : Option String) (findings : List String)
    (sourcesList : List String) (researchType : String) : String :=
  let goalOrNA := pyToStr (firstTruthyJ [dlookup "goal" planMeta] (.str "N/A"))
  let questionStr :=
    match question with
    | some q => if q ≠ "" then q else goalOrNA
    | none => goalOrNA
  let questionType :=
    pyToStr (firstTruthyJ [dlookup "question_type" planMeta] (.str "N/A"))
  let findingsBlock :=
    if findings.isEmpty then "- None"
    else "\n".intercalate (findings.map (fun f => "- " ++ f))
  let sourcesBlock :=
    if sourcesList.isEmpty then "- None"
    else "\n".intercalate sourcesList
  let baseInfo :=
    "Question: " ++ questionStr ++ "\n" ++
    "Plan goal: " ++ goalOrNA ++ "\n" ++
    "Question type: " ++ questionType ++ "\n\n" ++
    "Findings to synthesize:\n" ++ findingsBlock ++
    "\n\nSources (cite as [index]):\n" ++ sourcesBlock
  if researchType = "academic" then ACADEMIC_FINAL_REPORT_PROMPT ++ baseInfo
  else GENERAL_FINAL_REPORT_PROMPT ++ baseInfo

/-! ## `deep_research.stream_research_workflow`

The async generator is embedded as a state machine: one step function
`procEvent` per incoming Agno workflow event, folded over the (timestamped)
event stream by `procEvents`.  The `getattr` chains that pull fields out of
the loosely-typed Agno event objects are modelled by the typed fields of
`WfEvent`; event kinds the `if`/`elif` chain does not recognize (there is no
`else` branch and no error-event branch in the source) are `WfEvent.other`.
Exceptions raised inside a handler (possible only in the `ToolCallCompleted`
branch, via `.get` on a non-dict or an unhashable dict key) abort the
generator and are modelled with `Except.error`. -/

/-- One Agno workflow event, after field extraction. -/
inductive WfEvent where
  | parallelStarted
  | parallelCompleted
  | stepStarted (stepName : String) (stepIndex : Option Nat)
  | stepCompleted (stepName : String) (stepIndex : Option Nat)
      (outputObj : Option String) (content : String)
  | runContent (content : String)
  | workflowCompleted (content : String)
  | toolCallStarted (stepName : Option String) (toolCallId : Option String)
      (toolName : String) (toolArgs : JValue)
  | toolCallCompleted (stepName : Option String) (toolCallId : Option String)
      (toolName : String) (result : JValue) (toolCallError : Option String)
  | other (eventName : String)

/-- One entry of `active_steps_info`. -/
structure StepInfo where
  number : Nat
  title : String
  startTime : Nat
  content : List String
  deriving Repr

/-- The mutable state of `stream_research_workflow` (including the
`sources_map` dict owned by the caller and mutated here, and the index of the
next `uuid4` draw). -/
structure WfState where
  activeToolCalls : List (String × Nat)
  activeStepsInfo : List (String × StepInfo)
  stepToolMappings : List (String × List (String × String))
  currentStepNumber : Option Nat
  currentStepTitle : String
  sourcesMap : List (JValue × JValue)
  uuidIdx : Nat
  deriving Repr

/-- The initial state (source lines 355–365 plus the caller's fresh
`sources_map`). -/
def initWfState : WfState :=
  { activeToolCalls := [], activeStepsInfo := [], stepToolMappings := [],
    currentStepNumber := none, currentStepTitle := "",
    sourcesMap := [], uuidIdx := 0 }

/-- Static parameters of the generator: the `total_steps` argument and the
supply of `uuid.uuid4().hex[:8]` draws. -/
structure WfParams where
  totalSteps : Nat
  uuidHex : Nat → String

/-- `original_id if original_id else "unknown_id"`. -/
def pyKeyOfId (toolCallId : Option String) : String :=
  match toolCallId with
  | some s => if s = "" then "unknown_id" else s
  | none => "unknown_id"

/-- The freshly minted frontend-unique tool-call identifier
`f"{tool_name}_{uuid.uuid4().hex[:8]}"`. -/
def mintToolId (toolName suffix : String) : String :=
  toolName ++ "_" ++ suffix

/-- Target-step selection of the `ToolCallStarted` handler: the event's own
step when it is truthy and active, else the most recently started active
step, else none. -/
def chooseTargetStep (activeSteps : List (String × StepInfo))
    (stepName : Option String) : Option String :=
  match stepName with
  | some sn =>
      if sn ≠ "" ∧ dmem sn activeSteps then some sn
      else lastKey? activeSteps
  | none => lastKey? activeSteps

/-- `step_tool_mappings.setdefault(target, {})[key] = uid`. -/
def storeMapping (target key uid : String)
    (mappings : List (String × List (String × String))) :
    List (String × List (String × String)) :=
  let scopedMap := (dlookup target mappings).getD []
  dinsert target (dinsert key uid scopedMap) mappings

/-- Formatting of the outbound `arguments` field (source lines 540–560): a
dict is dumped to JSON; a string is round-tripped through `json.loads`, then
`ast.literal_eval`, then kept as-is; anything else becomes the Python dict
`{}` (yielded as an empty object). -/
def formatToolArgs : JValue → JValue
  | .obj fields => .str (dumps (.obj fields))
  | .str s =>
      match jsonLoads s with
      | some v => .str (dumps v)
      | none =>
          match pyLiteralEval s with
          | some v => .str (dumps v)
          | none => .str s
  | _ => .obj []

/-- Identifier resolution of the `ToolCallCompleted` handler (source lines
586–605): direct lookup in the event step's scoped map when that step name is
truthy and has a map (the step name is recorded as found even when the key is
absent there); otherwise a scan over all scoped maps in reverse insertion
order taking the first truthy hit. -/
def scanMappings (key : String) :
    List (String × List (String × String)) → Option String × Option String
  | [] => (none, none)
  | (s, m) :: rest =>
      match dlookup key m with
      | some uid => if uid ≠ "" then (some uid, some s) else scanMappings key rest
      | none => scanMappings key rest

def resolveToolCall (mappings : List (String × List (String × String)))
    (stepName : Option String) (key : String) : Option String × Option String :=
  match stepName with
  | some sn =>
      if sn ≠ "" ∧ dmem sn mappings then
        (dlookup key ((dlookup sn mappings).getD []), some sn)
      else scanMappings key mappings.reverse
  | none => scanMappings key mappings.reverse

/-- Parsing of a tool result into a dict candidate (source lines 632–642):
strings go through `json.loads` then `ast.literal_eval` (unrestricted —
any literal value results), dicts pass through, anything else gives `None`. -/
def parseResultDict : JValue → Option JValue
  | .str s =>
      (match jsonLoads s with
       | some v => some v
       | none => pyLiteralEval s)
  | .obj fields => some (.obj fields)
  | _ => none

/-- `result_dict.get(k) if result_dict else None`: `None`/falsy gives `None`;
a truthy non-dict raises `AttributeError`. -/
def pyCondGet (v? : Option JValue) (k : String) : Except String (Option JValue) :=
  match v? with
  | none => .ok none
  | some v =>
      if pyTruthy v then
        match v with
        | .obj fields => .ok (dlookup k fields)
        | _ => .error "AttributeError: get on non-dict tool result"
      else .ok none

/-- Registration loop over a `results` list (source lines 649–653):
`url = source.get("url") or source.get("uri"); if url: sources_map[url] = source`.
A non-dict element raises `AttributeError`; an unhashable url raises
`TypeError`. -/
def registerResults (sources : List JValue)
    (sourcesMap : List (JValue × JValue)) :
    Except String (List (JValue × JValue)) :=
  match sources with
  | [] => .ok sourcesMap
  | source :: rest =>
      match source with
      | .obj fields =>
          let url := firstTruthyJ [dlookup "url" fields, dlookup "uri" fields] .null
          if pyTruthy url then
            if jhashable url then
              registerResults rest (jinsert url source sourcesMap)
            else .error "TypeError: unhashable url"
          else registerResults rest sourcesMap
      | _ => .error "AttributeError: get on non-dict source"

/-- Registration loop over a `sources` list (source lines 654–658):
`uri = source.get("uri"); if uri: sources_map[uri] = source`. -/
def registerSources (sources : List JValue)
    (sourcesMap : List (JValue × JValue)) :
    Except String (List (JValue × JValue)) :=
  match sources with
  | [] => .ok sourcesMap
  | source :: rest =>
      match source with
      | .obj fields =>
          let uri := firstTruthyJ [dlookup "uri" fields] .null
          if pyTruthy uri then
            if jhashable uri then
              registerSources rest (jinsert uri source sourcesMap)
            else .error "TypeError: unhashable uri"
          else registerSources rest sourcesMap
      | _ => .error "AttributeError: get on non-dict source"

/-- Source extraction of the `ToolCallCompleted` handler (source lines
644–658): prefer a truthy list under `results`, else a truthy list under
`sources`. -/
def extractSources (resultDict : Option JValue)
    (sourcesMap : List (JValue × JValue)) :
    Except String (List (JValue × JValue)) :=
  match pyCondGet resultDict "results" with
  | .error e => .error e
  | .ok resultsList =>
      match pyCondGet resultDict "sources" with
      | .error e => .error e
      | .ok sourcesList =>
          match resultsList with
          | some (.arr items) =>
              if !items.isEmpty then registerResults items sourcesMap
              else
                match sourcesList with
                | some (.arr items') =>
                    if !items'.isEmpty then registerSources items' sourcesMap
                    else .ok sourcesMap
                | _ => .ok sourcesMap
          | _ =>
              match sourcesList with
              | some (.arr items') =>
                  if !items'.isEmpty then registerSources items' sourcesMap
                  else .ok sourcesMap
              | _ => .ok sourcesMap

/-- The `output` field of the outbound `tool_result` event (source lines
663–683): only when the result is truthy and there is no tool error; strings
are round-tripped through `json.loads` then `ast.literal_eval` and re-dumped,
or wrapped as `{"output": raw}`; other values are dumped directly. -/
def formatToolOutput (result : JValue) (errTruthy : Bool) : Option String :=
  if pyTruthy result ∧ ¬ errTruthy then
    match result with
    | .str s =>
        match jsonLoads s with
        | some v => some (dumps v)
        | none =>
            match pyLiteralEval s with
            | some v => some (dumps v)
            | none => some (dumps (.obj [("output", .str s)]))
    | v => some (dumps v)
  else none

/-- The scoped-map update of the `ToolCallStarted` handler: store the minted
id under the chosen target step's map (no target: nothing stored). -/
def startMappings (s : WfState) (stepName : Option String) (key uniqueId : String) :
    List (String × List (String × String)) :=
  match chooseTargetStep s.activeStepsInfo stepName with
  | some tgt =>
      if tgt ≠ "" then storeMapping tgt key uniqueId s.stepToolMappings
      else s.stepToolMappings
  | none => s.stepToolMappings

/-- The `step` field of the outbound `tool_call` event: the chosen target
step's display number, else `current_step_context["number"] or 1`.  (The
inner fallback is unreachable: a chosen target is always a key of
`active_steps_info`.) -/
def toolCallStartStepNum (s : WfState) (stepName : Option String) : Nat :=
  match chooseTargetStep s.activeStepsInfo stepName with
  | some tgt =>
      if tgt ≠ "" then
        match dlookup tgt s.activeStepsInfo with
        | some info => info.number
        | none => pyOrOptNat s.currentStepNumber 1
      else pyOrOptNat s.currentStepNumber 1
  | none => pyOrOptNat s.currentStepNumber 1

/-- The outbound identifier of the `ToolCallCompleted` handler and the uuid
draw index after it: the resolved id when truthy, else the raw external id
when truthy, else a freshly minted `fallback_`-prefixed id. -/
def completedUniqueId (p : WfParams) (s : WfState)
    (stepName toolCallId : Option String) : String × Nat :=
  let key := pyKeyOfId toolCallId
  let resolved? := (resolveToolCall s.stepToolMappings stepName key).1
  if optStrTruthy resolved? then ((resolved?).getD "", s.uuidIdx)
  else
    match toolCallId with
    | some o =>
        if o ≠ "" then (o, s.uuidIdx)
        else ("fallback_" ++ p.uuidHex s.uuidIdx, s.uuidIdx + 1)
    | none => ("fallback_" ++ p.uuidHex s.uuidIdx, s.uuidIdx + 1)

/-- The scoped-map cleanup of the `ToolCallCompleted` handler: delete the
resolved entry from the found step's map when present. -/
def deleteResolvedMapping (mappings : List (String × List (String × String)))
    (foundStep? : Option String) (key : String) :
    List (String × List (String × String)) :=
  match foundStep? with
  | some f =>
      if f ≠ "" ∧ dmem f mappings then
        if dmem key ((dlookup f mappings).getD []) then
          dinsert f (ddel key ((dlookup f mappings).getD [])) mappings
        else mappings
      else mappings
  | none => mappings

/-- The `step` field of the outbound `tool_result` event. -/
def completedStepNum (s : WfState) (foundStep? : Option String) : Nat :=
  match foundStep? with
  | some f =>
      match dlookup f s.activeStepsInfo with
      | some info => info.number
      | none => pyOrOptNat s.currentStepNumber 1
  | none => pyOrOptNat s.currentStepNumber 1

/-- Process one workflow event arriving at time `now` (ms):
the body of the `async for` dispatch loop of `stream_research_workflow`. -/
def procEvent (p : WfParams) (s : WfState) (now : Nat) (ev : WfEvent) :
    Except String (WfState × List OutEvent) :=
  match ev with
  | .parallelStarted => .ok (s, [])
  | .parallelCompleted => .ok (s, [])
  | .stepStarted stepName stepIndex =>
      let s1 :=
        match stepIndex with
        | some i =>
            { s with
              activeStepsInfo :=
                dinsert stepName
                  { number := i + 1, title := stepName,
                    startTime := now, content := [] } s.activeStepsInfo,
              currentStepNumber := some (i + 1),
              currentStepTitle := stepName }
        | none => s
      let stepDisplayNum :=
        match dlookup stepName s1.activeStepsInfo with
        | some info => info.number
        | none => 1
      .ok (s1, [.researchStep stepDisplayNum p.totalSteps stepName "running" none none])
  | .stepCompleted stepName _ outputObj content =>
      let info? := dlookup stepName s.activeStepsInfo
      let stepNum :=
        match info? with
        | some info => info.number
        | none => pyOrOptNat s.currentStepNumber 1
      let stepTitle := pyOrStr stepName s.currentStepTitle
      let duration? := info?.map (fun info => now - info.startTime)
      let outputContent :=
        match outputObj with
        | some oc => oc
        | none => content
      let buffered := (info?.map StepInfo.content).getD []
      let outs :=
        buffered.map (fun c => OutEvent.stepContent stepNum c)
          ++ [.researchStep stepNum p.totalSteps stepTitle "done" duration? none]
          ++ (if outputContent ≠ "" then [OutEvent.stepOutput stepNum outputContent] else [])
      .ok ({ s with activeStepsInfo := ddel stepName s.activeStepsInfo }, outs)
  | .runContent content =>
      if content ≠ "" ∧ s.activeStepsInfo.isEmpty = false then
        .ok ({ s with
               activeStepsInfo :=
                 updateLastValue
                   (fun info => { info with content := info.content ++ [content] })
                   s.activeStepsInfo }, [])
      else .ok (s, [])
  | .workflowCompleted content => .ok (s, [.workflowCompletedEv content])
  | .toolCallStarted stepName toolCallId toolName toolArgs =>
      let uniqueId := mintToolId toolName (p.uuidHex s.uuidIdx)
      let key := pyKeyOfId toolCallId
      let s' :=
        { s with
          stepToolMappings := startMappings s stepName key uniqueId,
          activeToolCalls := dinsert uniqueId now s.activeToolCalls,
          uuidIdx := s.uuidIdx + 1 }
      .ok (s', [.toolCall uniqueId toolName (formatToolArgs toolArgs)
                  (toolCallStartStepNum s stepName) p.totalSteps])
  | .toolCallCompleted stepName toolCallId toolName result toolCallError =>
      let key := pyKeyOfId toolCallId
      let foundStep? := (resolveToolCall s.stepToolMappings stepName key).2
      -- `if not unique_id:` — the resolved id may be `None` (or, in
      -- principle, empty): fall back to the raw external id when truthy,
      -- else mint a fresh `fallback_`-prefixed id (a fresh uuid4 draw)
      let (uniqueId, uuidIdx') := completedUniqueId p s stepName toolCallId
      let (duration?, activeToolCalls') :=
        if uniqueId ≠ "" ∧ dmem uniqueId s.activeToolCalls then
          (some (now - ((dlookup uniqueId s.activeToolCalls).getD 0)),
           ddel uniqueId s.activeToolCalls)
        else (none, s.activeToolCalls)
      let mappings' := deleteResolvedMapping s.stepToolMappings foundStep? key
      let stepNumForReport := completedStepNum s foundStep?
      let resultDict := parseResultDict result
      match extractSources resultDict s.sourcesMap with
      | .error e => .error e
      | .ok sourcesMap' =>
          let errTruthy := optStrTruthy toolCallError
          let status := if errTruthy then "error" else "done"
          let output? := formatToolOutput result errTruthy
          let error? := if errTruthy then some ((toolCallError).getD "") else none
          .ok ({ s with
                 activeToolCalls := activeToolCalls',
                 stepToolMappings := mappings',
                 sourcesMap := sourcesMap',
                 uuidIdx := uuidIdx' },
               [.toolResult uniqueId toolName status duration? output? error?
                  stepNumForReport p.totalSteps])
  | .other _ => .ok (s, [])

/-- Fold `procEvent` over a timestamped event stream, collecting the yielded
outbound events; an exception aborts the generator, keeping the events
already yielded. -/
def procEvents (p : WfParams) (s : WfState) :
    List (Nat × WfEvent) → List OutEvent × Except String WfState
  | [] => ([], .ok s)
  | (now, ev) :: rest =>
      match procEvent p s now ev with
      | .error e => ([], .error e)
      | .ok (s', outs) =>
          let (outs', r) := procEvents p s' rest
          (outs ++ outs', r)

/-- `stream_research_workflow`: the events yielded to the caller — the folded
dispatch loop followed by the final `yield {"type": "workflow_completed"}`
(reached only when the loop does not raise). -/
def streamResearchWorkflow (p : WfParams) (s : WfState)
    (events : List (Nat × WfEvent)) : List OutEvent :=
  match procEvents p s events with
  | (outs, .ok _) => outs ++ [.workflowCompletedEv ""]
  | (outs, .error _) => outs

/-! ## `deep_research.stream_deep_research` — consuming loop and report phase

The consuming `async for` loop of `stream_deep_research` (source lines
781–806) forwards workflow events, collects `step_output` payloads, and stops
at the first `workflow_completed` event; the report phase then sorts the
collected outputs by step number, builds the final prompt, streams the report
request and ends with the terminal `done` event (source lines 808–869). -/

/-- One collected `step_output` payload (`{"step": n, "content": c}`). -/
structure StepOut where
  step : Nat
  content : String
  deriving Repr, DecidableEq

/-- The consuming loop: returns the events forwarded to the caller and the
collected step outputs, stopping at the first `workflow_completed` event.
`research_step` events with status `"done"` are counted and forwarded; all
other non-`step_output` events are forwarded by the `else` branch (the
counter is never read afterwards and is omitted). -/
def collectPhase : List OutEvent → List OutEvent × List StepOut
  | [] => ([], [])
  | e :: rest =>
      match e with
      | .stepOutput n c =>
          let (f, o) := collectPhase rest
          (f, (if c ≠ "" then [⟨n, c⟩] else []) ++ o)
      | .workflowCompletedEv _ => ([], [])
      | _ =>
          let (f, o) := collectPhase rest
          (e :: f, o)

/-- `step_outputs.sort(key=lambda x: x["step"])`: CPython's `list.sort` is
the stable ascending sort by the key, which is extensionally the insertion
sort on the `step` projection. -/
def sortStepOutputs (outs : List StepOut) : List StepOut :=
  outs.insertionSort (fun a b => a.step ≤ b.step)

/-- `findings_for_report`: the sorted step contents, or the literal
`["No step outputs available"]` when no output was collected. -/
def findingsForReport (outs : List StepOut) : List String :=
  let sortedContents := (sortStepOutputs outs).map StepOut.content
  if sortedContents.isEmpty then ["No step outputs available"]
  else sortedContents

/-- The report prompt handed to the Generation Service (source lines
808–824, composing `build_sources_list`, the sort and
`build_final_report_prompt`). -/
def reportPromptFor (planMeta : List (String × JValue)) (question : Option String)
    (collected : List StepOut) (finalSources : List (JValue × JValue))
    (researchType : String) : String :=
  build_final_report_prompt planMeta question (findingsForReport collected)
    (build_sources_list finalSources) researchType

/-- One event of the report-generation stream (`service.stream_chat`). -/
inductive GenEvent where
  | text (content : String)
  | errorE (error : Option String)
  | otherG (tag : String)
  deriving Repr

/-- The report-streaming loop and terminal `done` event (source lines
854–869): `text` events are forwarded and accumulated; an `error` event
raises `RuntimeError(event.get("error") or "Report generation failed")`,
which terminates the stream with no further events; otherwise the single
terminal `done` carries the accumulated report text and
`list(sources_map.values()) or None`. -/
def doneSourcesOf (finalSources : List (JValue × JValue)) : Option (List JValue) :=
  if (finalSources.map Prod.snd).isEmpty then none
  else some (finalSources.map Prod.snd)

def runReportPhase (finalSources : List (JValue × JValue)) :
    List GenEvent → String → List OutEvent × Except String Unit
  | [], acc => ([.doneEv acc (doneSourcesOf finalSources)], .ok ())
  | .text c :: rest, acc =>
      let (outs, r) := runReportPhase finalSources rest (acc ++ c)
      (.textEv c :: outs, r)
  | .errorE e :: _, _ => ([], .error (pyOrOptStr e "Report generation failed"))
  | .otherG _ :: rest, acc => runReportPhase finalSources rest acc

/-- The caller-visible tail of `stream_deep_research` given the workflow
events it consumed (up to the break), the registry contents at that point and
the report stream: forwarded workflow events followed by the report phase. -/
def streamDeepResearchPost (wfOuts : List OutEvent)
    (finalSources : List (JValue × JValue)) (reportEvents : List GenEvent) :
    List OutEvent × Except String Unit :=
  let (forwarded, _) := collectPhase wfOuts
  let (reportOuts, r) := runReportPhase finalSources reportEvents ""
  (forwarded ++ reportOuts, r)

/-! ## `deep_research.build_research_workflow`

Structural model of the built Agno `Workflow`.  A step's agent is represented
by its `instructions` string (the only per-step part of the agent
configuration; provider/model/tool settings are identical for every step and
both branches).  The constant `stream`/`stream_events`/`stream_executor_events`
flags of the `Workflow` are omitted. -/

structure WStep where
  name : String
  description : String
  instructions : String
  deriving Repr, DecidableEq

inductive WorkflowItem where
  | step (s : WStep)
  | parallel (name description : String) (steps : List WStep)
  deriving Repr, DecidableEq

structure Workflow where
  name : String
  description : String
  steps : List WorkflowItem
  deriving Repr, DecidableEq

/-- Parse the lexeme of an integer JSON number. -/
def parseIntLexeme (lex : String) : Option Int :=
  match lex.data with
  | '-' :: ds =>
      if ds ≠ [] ∧ ds.all isDigit then
        some (-(Int.ofNat (ds.foldl (fun n c => n * 10 + (c.toNat - '0'.toNat)) 0)))
      else none
  | ds =>
      if ds ≠ [] ∧ ds.all isDigit then
        some (Int.ofNat (ds.foldl (fun n c => n * 10 + (c.toNat - '0'.toNat)) 0))
      else none

/-- A `JValue` used as a Python `int` (plan step numbers); Python `bool`s are
ints.  Non-integer values fall back to the default (CPython would carry a
float or raise on the later arithmetic; plans produced by the planner carry
integer steps). -/
def jvalToInt (v : JValue) (dflt : Int) : Int :=
  match v with
  | .num lex => (parseIntLexeme lex).getD dflt
  | .bool true => 1
  | .bool false => 0
  | _ => dflt

/-- `step_data.get("step", default)`: the stored value when the key exists,
else the default. -/
def stepNumberOf (stepData : JValue) (dflt : Int) : Int :=
  match jget stepData "step" with
  | some v => jvalToInt v dflt
  | none => dflt

/-- Python iteration of a `JValue` into displayed items (lists iterate
elements, strings iterate characters; iterating any other truthy value
raises `TypeError` in CPython and is unreachable for planner output). -/
def pyIterToStrList : JValue → List String
  | .arr items => items.map pyToStr
  | .str s => s.data.map (fun c => String.mk [c])
  | _ => []

/-- `chr(10).join([f"- {a}" for a in v]) if v else "- None"`. -/
def dashBlock (v : JValue) : String :=
  if pyTruthy v then "\n".intercalate ((pyIterToStrList v).map (fun a => "- " ++ a))
  else "- None"

/-- The instructions of `_create_step_agent` (source lines 143–187). -/
def stepInstructions (planMeta : List (String × JValue)) (stepData : JValue)
    (stepIndex : Int) (researchType : String) : String :=
  let action := pyToStr (firstTruthyJ [jget stepData "action"]
    (.str ("Research step " ++ toString (stepIndex + 1))))
  let expectedOutput := pyToStr (firstTruthyJ [jget stepData "expected_output"] (.str ""))
  let deliverableFormat := pyToStr (firstTruthyJ [jget stepData "deliverable_format"]
    (.str "paragraph"))
  let acceptance := firstTruthyJ [jget stepData "acceptance_criteria"] (.arr [])
  let depth := pyToStr (firstTruthyJ [jget stepData "depth"] (.str "medium"))
  let assumptions := firstTruthyJ [dlookup "assumptions" planMeta] (.arr [])
  let header :=
    if researchType = "academic" then
      "You are executing an academic research step with scholarly rigor."
    else "You are executing a deep research step."
  let tailPrompt :=
    if researchType = "academic" then ACADEMIC_STEP_AGENT_PROMPT
    else GENERAL_STEP_AGENT_PROMPT
  header ++ "\n\n" ++
  "Step " ++ toString (stepIndex + 1) ++ ": " ++ action ++ "\n\n" ++
  "Expected Output: " ++ expectedOutput ++ "\n" ++
  "Deliverable Format: " ++ deliverableFormat ++ "\n" ++
  "Depth: " ++ depth ++ "\n\n" ++
  "Acceptance Criteria:\n" ++ dashBlock acceptance ++ "\n\n" ++
  "Assumptions:\n" ++ dashBlock assumptions ++ "\n\n" ++
  tailPrompt ++ "\n"

/-- The steps of the parallel branch (source lines 248–278); `idx` counts the
steps already built (`len(parallel_steps)`). -/
def buildStepsPar (planMeta : List (String × JValue)) (researchType : String) :
    List JValue → Nat → List WStep
  | [], _ => []
  | stepData :: rest, idx =>
      let stepNumber := stepNumberOf stepData (Int.ofNat idx + 1)
      let action := pyToStr (firstTruthyJ [jget stepData "action"]
        (.str ("Research Step " ++ toString stepNumber)))
      let stepName := "Step " ++ toString stepNumber ++ ": " ++ action
      { name := stepName, description := action,
        instructions := stepInstructions planMeta stepData (stepNumber - 1) researchType }
        :: buildStepsPar planMeta researchType rest (idx + 1)

/-- The steps of the sequential branch (source lines 288–321); `idx` counts
the steps already built (`len(workflow_steps)`). -/
def buildStepsSeq (planMeta : List (String × JValue)) (researchType : String) :
    List JValue → Nat → List WStep
  | [], _ => []
  | stepData :: rest, idx =>
      let stepNumber := stepNumberOf stepData (Int.ofNat idx + 1)
      let action := pyToStr (firstTruthyJ [jget stepData "action"]
        (.str ("Research Step " ++ toString stepNumber)))
      let description := pyToStr (firstTruthyJ [jget stepData "expected_output"]
        (.str action))
      let stepName := "Step " ++ toString stepNumber ++ ": " ++ action
      { name := stepName, description := description,
        instructions := stepInstructions planMeta stepData (stepNumber - 1) researchType }
        :: buildStepsSeq planMeta researchType rest (idx + 1)

/-- `plan_meta.get("plan") or []`, iterated as a list (a truthy non-list
would raise on the later `.get` calls in CPython). -/
def planStepsOf (planMeta : List (String × JValue)) : List JValue :=
  match dlookup "plan" planMeta with
  | some (.arr items) => items
  | _ => []

/-- `deep_research.build_research_workflow`. -/
def build_research_workflow (planMeta : List (String × JValue))
    (question : String) (researchType : String)
    (concurrentExecution : Bool) : Workflow :=
  let steps := planStepsOf planMeta
  let workflowSteps : List WorkflowItem :=
    if concurrentExecution ∧ steps.length > 1 then
      let parallelSteps := buildStepsPar planMeta researchType steps 0
      [.parallel "parallel_research_steps"
        ("Parallel execution of " ++ toString parallelSteps.length ++ " research steps")
        parallelSteps]
    else
      (buildStepsSeq planMeta researchType steps 0).map WorkflowItem.step
  { name := "deep_research",
    description := "Deep research execution for: " ++ question,
    steps := workflowSteps }

/-- Whether a built workflow contains a `Parallel` construct. -/
def usesParallel (w : Workflow) : Bool :=
  w.steps.any (fun item =>
    match item with
    | .parallel _ _ _ => true
    | .step _ => false)

/-! ## Derived predicates and concrete fixtures used by the statements -/

/-- A `research_step` event with status `"error"`. -/
def isErrorResearchStep : OutEvent → Bool
  | .researchStep _ _ _ status _ _ => status == "error"
  | _ => false

def hasErrorResearchStep (l : List OutEvent) : Bool :=
  l.any isErrorResearchStep

/-- A `done`-status `research_step` event for a given step number. -/
def isDoneResearchStepFor (n : Nat) : OutEvent → Bool
  | .researchStep step _ _ status _ _ => step == n && status == "done"
  | _ => false

def hasDoneEvent (l : List OutEvent) : Bool :=
  l.any (fun e =>
    match e with
    | .doneEv _ _ => true
    | _ => false)

/-- The `text` contents of a report-generation stream, in order. -/
def genTexts : List GenEvent → List String
  | [] => []
  | .text c :: rest => c :: genTexts rest
  | _ :: rest => genTexts rest

/-- Whether a report-generation stream contains an `error` event. -/
def genHasError : List GenEvent → Bool
  | [] => false
  | .errorE _ :: _ => true
  | _ :: rest => genHasError rest

/-- No `step_output` event of the stream carries non-empty content
(in particular: no step produced any output at all). -/
def noNonemptyStepOutput (events : List OutEvent) : Bool :=
  events.all (fun e =>
    match e with
    | .stepOutput _ c => c == ""
    | _ => true)

/-- Fixture: a source entry for `https://a` titled `A`. -/
def srcEntryA : JValue := .obj [("url", .str "https://a"), ("title", .str "A")]

/-- Fixture: a later source entry for the same URL titled `B`. -/
def srcEntryB : JValue := .obj [("url", .str "https://a"), ("title", .str "B")]

/-- Fixture: dispatcher parameters with a deterministic stand-in for the
`uuid4` supply. -/
def cxParams : WfParams := ⟨2, fun k => "u" ++ toString k⟩

/-- Fixture: two steps `A` and `B` both having started a tool call with the
same external id `call_0`; `A`'s call has already been resolved (its scoped
map is empty) while `B`'s entry is still pending. -/
def cx5State : WfState :=
  { initWfState with
    stepToolMappings := [("A", []), ("B", [("call_0", "search_b1")])] }

/-- Concatenation of the streamed text chunks (the accumulated
`report_content`). -/
def concatStrings : List String → String
  | [] => ""
  | c :: rest => c ++ concatStrings rest

/-- Fixture: a state with one active step `S1` (display number 1). -/
def wit4State : WfState :=
  { initWfState with
    activeStepsInfo := [("S1", { number := 1, title := "S1", startTime := 0, content := [] })] }

instance stepLeTotal : IsTotal StepOut (fun a b => a.step ≤ b.step) :=
  ⟨fun a b => Nat.le_total a.step b.step⟩

instance stepLeTrans : IsTrans StepOut (fun a b => a.step ≤ b.step) :=
  ⟨fun _ _ _ hab hbc => Nat.le_trans hab hbc⟩

/-! # Theorems -/

/-! ## Auxiliary lemmas -/

theorem dlookup_dinsert_self (k : String) (v : α) (d : List (String × α)) :
    dlookup k (dinsert k v d) = some v := by
  induction d with
  | nil => simp [dinsert, dlookup]
  | cons kv rest ih =>
      obtain ⟨k', v'⟩ := kv
      by_cases h : k' = k
      · simp [dinsert, dlookup, h]
      · simp [dinsert, dlookup, h, ih]

theorem dlookup_dinsert_ne (k k' : String) (v : α) (d : List (String × α))
    (h : k' ≠ k) : dlookup k' (dinsert k v d) = dlookup k' d := by
  have h' : k ≠ k' := fun hh => h hh.symm
  induction d with
  | nil => simp [dinsert, dlookup, h']
  | cons kv rest ih =>
      obtain ⟨k'', v''⟩ := kv
      by_cases hk : k'' = k
      · simp [dinsert, dlookup, hk, h']
      · by_cases hq : k'' = k'
        · simp [dinsert, dlookup, hk, hq, h]
        · simp [dinsert, dlookup, hk, hq, ih]

theorem extractDelimited_empty (o c : Char) :
    extractDelimited o c "" = none := rfl

/-! ## C3 — plan parsing -/

/-- C3 counterexample: the claim asserts that `parse_plan` always returns a
plan with a non-empty steps list and that the fallback step's action is
`"Summarize the topic and gather key evidence"`.  On the input
`{"plan": []}` the code returns the parsed dict unchanged, whose steps list
is empty, and the fallback action in the code carries a trailing period. -/
theorem parse_plan_claim_counterexample :
    dlookup "plan" (parse_plan (some "\x7b\"plan\": []\x7d")) = some (.arr [])
    ∧ dlookup "action" fallbackPlanStep
        = some (.str "Summarize the topic and gather key evidence.")
    ∧ "Summarize the topic and gather key evidence." ≠
        "Summarize the topic and gather key evidence" := by
  refine ⟨by rfl, by rfl, by decide⟩

/-- C3 (amended): `parse_plan` is total (the embedding of a function whose
Python body catches every parse failure); on missing or empty input, and
whenever the parse result is not a dict with a list-valued `"plan"` key, it
returns the single-step fallback plan, whose action is
`"Summarize the topic and gather key evidence."` (trailing period) with
`requires_search=true`; when the parse result is such a dict it is returned
unchanged, so the returned steps list may be empty. -/
theorem parse_plan_totality_amended :
    parse_plan none = fallbackPlan
    ∧ parse_plan (some "") = fallbackPlan
    ∧ dlookup "plan" fallbackPlan = some (.arr [.obj fallbackPlanStep])
    ∧ dlookup "action" fallbackPlanStep
        = some (.str "Summarize the topic and gather key evidence.")
    ∧ dlookup "requires_search" fallbackPlanStep = some (.bool true)
    ∧ (∀ t : Option String,
        parse_plan t = fallbackPlan ∨
        ∃ fields, safe_json_parse (pyOrOptStr t "") = some (.obj fields)
          ∧ isJList (dlookup "plan" fields) = true
          ∧ parse_plan t = fields) := by
  refine ⟨rfl, rfl, rfl, rfl, rfl, ?_⟩
  intro t
  simp only [parse_plan]
  rcases h : safe_json_parse (pyOrOptStr t "") with _ | v
  · left; rfl
  · cases v with
    | obj fields =>
        by_cases hp : isJList (dlookup "plan" fields) = true
        · right
          exact ⟨fields, rfl, hp, by simp [hp]⟩
        · left
          simp [hp]
    | null => left; rfl
    | bool b => left; rfl
    | num lex => left; rfl
    | str sv => left; rfl
    | arr items => left; rfl

/-! ## C9 — JSON embedded in surrounding text -/

/-- C9: when the stripped input is not itself valid JSON but the substring
between its first `{` and last `}` parses to a dict with a list-valued
`"plan"` key, `parse_plan` returns that dict, not the fallback plan. -/
theorem parse_plan_embedded_json (s sub : String) (fields : List (String × JValue))
    (h1 : jsonLoads (pyStrip s) = none)
    (h2 : extractDelimited '\x7b' '\x7d' (pyStrip s) = some sub)
    (h3 : jsonLoads sub = some (.obj fields))
    (h4 : isJList (dlookup "plan" fields) = true) :
    parse_plan (some s) = fields := by
  have hstrip : pyStrip s ≠ "" := by
    intro h
    rw [h, extractDelimited_empty] at h2
    exact Option.noConfusion h2
  have hs : s ≠ "" := by
    intro h
    exact hstrip (by rw [h]; rfl)
  have horopt : pyOrOptStr (some s) "" = s := by
    simp [pyOrOptStr, hs]
  simp only [parse_plan, horopt, safe_json_parse, if_neg hs, if_neg hstrip,
    h1, h2, h3, h4, if_pos]

/-- C9 witness: a plan wrapped in a markdown code fence still parses. -/
theorem parse_plan_embedded_json_witness :
    parse_plan (some "```json\n\x7b\"plan\": []\x7d\n```") = [("plan", .arr [])] :=
  parse_plan_embedded_json "```json\n\x7b\"plan\": []\x7d\n```"
    "\x7b\"plan\": []\x7d" [("plan", .arr [])] (by rfl) (by rfl) (by rfl) (by rfl)

/-! ## C2 — source registry deduplication -/

/-- C2 counterexample: registering the same URL twice (via the tool-result
registration loop the engine uses) stores the *later* entry, not the first:
the claim's first-insertion-wins property fails. -/
theorem source_registry_claim_counterexample :
    registerResults [srcEntryA, srcEntryB] [] = .ok [(.str "https://a", srcEntryB)]
    ∧ srcEntryB ≠ srcEntryA := by
  constructor
  · rfl
  · intro h
    simp [srcEntryB, srcEntryA] at h

/-- C2 (amended): registry writes are keyed by URL with last-write-wins on
the value — re-inserting an existing URL replaces the stored entry with the
later one while keeping the URL's original position (so the citation
numbering derived from insertion order is unchanged); a fresh URL is appended
at the end, preserving first-seen order. -/
theorem source_registry_last_write_wins (m : List (JValue × JValue))
    (u : String) (v : JValue) :
    (jmem (.str u) m = true →
       jlookup (.str u) (jinsert (.str u) v m) = some v
       ∧ (jinsert (.str u) v m).map Prod.fst = m.map Prod.fst)
    ∧ (jmem (.str u) m = false → jinsert (.str u) v m = m ++ [(.str u, v)]) := by
  induction m with
  | nil =>
      constructor
      · intro h; simp [jmem, jlookup] at h
      · intro _; rfl
  | cons kv rest ih =>
      obtain ⟨k, w⟩ := kv
      by_cases hk : jeq k (.str u) = true
      · have hk2 : k = JValue.str u := by
          cases k with
          | str sv => simp only [jeq, beq_iff_eq] at hk; rw [hk]
          | null => simp [jeq] at hk
          | bool b => simp [jeq] at hk
          | num lex => simp [jeq] at hk
          | arr items => simp [jeq] at hk
          | obj fields => simp [jeq] at hk
        subst hk2
        constructor
        · intro _
          constructor
          · simp [jinsert, jlookup, jeq]
          · simp [jinsert, jeq]
        · intro h
          simp [jmem, jlookup, jeq] at h
      · constructor
        · intro h
          have h' : jmem (.str u) rest = true := by
            simpa [jmem, jlookup, hk] using h
          refine ⟨?_, ?_⟩
          · simpa [jinsert, jlookup, hk] using (ih.1 h').1
          · simpa [jinsert, hk] using (ih.1 h').2
        · intro h
          have h' : jmem (.str u) rest = false := by
            simpa [jmem, jlookup, hk] using h
          simp [jinsert, hk, ih.2 h']

/-- C2 witness: re-inserting `https://a` with a different entry keeps the
position but stores the later entry. -/
theorem source_registry_last_write_wins_witness :
    jlookup (.str "https://a")
        (jinsert (.str "https://a") srcEntryB [(.str "https://a", srcEntryA)])
      = some srcEntryB
    ∧ (jinsert (.str "https://a") srcEntryB
        [(.str "https://a", srcEntryA)]).map Prod.fst = [JValue.str "https://a"] := by
  have h := (source_registry_last_write_wins [(.str "https://a", srcEntryA)]
    "https://a" srcEntryB).1 (by rfl)
  exact ⟨h.1, h.2⟩

/-! ## C10 — concurrent mode degenerates to sequential for trivial plans -/

/-- C10: with the concurrent flag set but at most one plan step, the built
workflow equals the sequential one; the `Parallel` construct is used exactly
when the flag is set and the plan has more than one step. -/
theorem concurrent_degenerates_sequential :
    (∀ (planMeta : List (String × JValue)) (question researchType : String),
       (planStepsOf planMeta).length ≤ 1 →
       build_research_workflow planMeta question researchType true
         = build_research_workflow planMeta question researchType false)
    ∧ (∀ (planMeta : List (String × JValue)) (question researchType : String)
         (concurrentExecution : Bool),
       usesParallel
           (build_research_workflow planMeta question researchType concurrentExecution)
         = (concurrentExecution && decide ((planStepsOf planMeta).length > 1))) := by
  have haux : ∀ (l : List WStep),
      (l.map WorkflowItem.step).any (fun item =>
        match item with
        | .parallel _ _ _ => true
        | .step _ => false) = false := by
    intro l
    induction l with
    | nil => rfl
    | cons x rest ih => simp
  constructor
  · intro pm q rt h
    simp only [build_research_workflow]
    rw [if_neg (by rintro ⟨-, hc⟩; omega), if_neg (by rintro ⟨hc, -⟩; exact Bool.noConfusion hc)]
  · intro pm q rt c
    cases c with
    | false =>
        simp only [build_research_workflow, usesParallel]
        rw [if_neg (by rintro ⟨hc, -⟩; exact Bool.noConfusion hc)]
        simp [haux]
    | true =>
        by_cases hl : (planStepsOf pm).length > 1
        · simp only [build_research_workflow, usesParallel]
          rw [if_pos (by exact ⟨by trivial, hl⟩)]
          simp [hl]
        · simp only [build_research_workflow, usesParallel]
          rw [if_neg (by rintro ⟨-, hc⟩; exact hl hc)]
          simp [haux, hl]

/-- C10 witness: the one-step fallback plan builds the same workflow with the
flag set as with it unset. -/
theorem concurrent_degenerates_sequential_witness :
    build_research_workflow fallbackPlan "q" "general" true
      = build_research_workflow fallbackPlan "q" "general" false :=
  concurrent_degenerates_sequential.1 fallbackPlan "q" "general" (by decide)

/-! ## C6 — step-order sorting of report findings -/

/-- C6: the findings handed to the report synthesizer are the collected step
outputs sorted by step index in non-decreasing order (a permutation of what
arrived, regardless of arrival order); e.g. completions arriving in order
[3, 1, 2] yield findings ordered [1, 2, 3]. -/
theorem findings_sorted_by_step_index :
    (∀ outs : List StepOut,
       (sortStepOutputs outs).Sorted (fun a b => a.step ≤ b.step)
       ∧ (sortStepOutputs outs).Perm outs)
    ∧ findingsForReport [⟨3, "f3"⟩, ⟨1, "f1"⟩, ⟨2, "f2"⟩] = ["f1", "f2", "f3"] := by
  refine ⟨fun outs => ⟨List.sorted_insertionSort _ outs, List.perm_insertionSort _ outs⟩,
    by decide⟩

/-! ## C7 — report-generation error atomicity -/

theorem strAppendEmpty (a : String) : a ++ "" = a := by
  apply String.ext
  simp [String.data_append]

theorem strAppendAssoc (a b c : String) : a ++ b ++ c = a ++ (b ++ c) := by
  apply String.ext
  simp [String.data_append]

theorem hasDoneEvent_map_text (l : List String) :
    hasDoneEvent (l.map OutEvent.textEv) = false := by
  induction l with
  | nil => rfl
  | cons c rest ih =>
      simp only [List.map_cons, hasDoneEvent, List.any_cons, Bool.false_or] at ih ⊢
      exact ih

theorem runReportPhase_no_error (finalSources : List (JValue × JValue)) :
    ∀ (revs : List GenEvent) (acc : String), genHasError revs = false →
    runReportPhase finalSources revs acc
      = ((genTexts revs).map OutEvent.textEv
          ++ [.doneEv (acc ++ concatStrings (genTexts revs)) (doneSourcesOf finalSources)],
         .ok ()) := by
  intro revs
  induction revs with
  | nil =>
      intro acc _
      simp [runReportPhase, genTexts, concatStrings, strAppendEmpty]
  | cons ev rest ih =>
      intro acc h
      cases ev with
      | text c =>
          have h' : genHasError rest = false := by simpa [genHasError] using h
          simp [runReportPhase, genTexts, concatStrings, ih (acc ++ c) h',
            strAppendAssoc]
      | errorE e2 => simp [genHasError] at h
      | otherG tag =>
          have h' : genHasError rest = false := by simpa [genHasError] using h
          simp [runReportPhase, genTexts, ih acc h']

theorem runReportPhase_error (finalSources : List (JValue × JValue)) :
    ∀ (pre : List GenEvent) (e : Option String) (post : List GenEvent) (acc : String),
    genHasError pre = false →
    runReportPhase finalSources (pre ++ .errorE e :: post) acc
      = ((genTexts pre).map OutEvent.textEv,
         .error (pyOrOptStr e "Report generation failed")) := by
  intro pre
  induction pre with
  | nil => intro e post acc _; simp [runReportPhase, genTexts]
  | cons ev rest ih =>
      intro e post acc h
      cases ev with
      | text c =>
          have h' : genHasError rest = false := by simpa [genHasError] using h
          simp [runReportPhase, genTexts, ih e post (acc ++ c) h']
      | errorE e2 => simp [genHasError] at h
      | otherG tag =>
          have h' : genHasError rest = false := by simpa [genHasError] using h
          simp [runReportPhase, genTexts, ih e post acc h']

/-- C7: an `error` event from the report stream is fatal — the stream ends
with the single raised error, only the text events before the error were
forwarded and no `done` event (partial or otherwise) is ever emitted after
it; without an error event, the stream is the text events followed by exactly
one terminal `done` carrying the full accumulated report text and
`list(sources_map.values()) or None`. -/
theorem report_error_atomicity :
    (∀ (finalSources : List (JValue × JValue)) (pre post : List GenEvent)
       (e : Option String),
       genHasError pre = false →
       runReportPhase finalSources (pre ++ .errorE e :: post) ""
         = ((genTexts pre).map OutEvent.textEv,
            .error (pyOrOptStr e "Report generation failed"))
       ∧ hasDoneEvent (runReportPhase finalSources (pre ++ .errorE e :: post) "").1
           = false)
    ∧ (∀ (finalSources : List (JValue × JValue)) (revs : List GenEvent),
       genHasError revs = false →
       runReportPhase finalSources revs ""
         = ((genTexts revs).map OutEvent.textEv
             ++ [.doneEv (concatStrings (genTexts revs)) (doneSourcesOf finalSources)],
            .ok ())) := by
  constructor
  · intro finalSources pre post e h
    have he := runReportPhase_error finalSources pre e post "" h
    refine ⟨he, ?_⟩
    rw [he]
    exact hasDoneEvent_map_text _
  · intro finalSources revs h
    have hn := runReportPhase_no_error finalSources revs "" h
    rw [hn]
    apply congrArg (fun l => (l, Except.ok ()))
    apply congrArg (fun t => (genTexts revs).map OutEvent.textEv
      ++ [OutEvent.doneEv t (doneSourcesOf finalSources)])
    apply String.ext
    simp [String.data_append]

/-- C7 witness: with one text chunk then an error, the stream has no `done`
and raises the error text; with no error, the stream ends in one `done`. -/
theorem report_error_atomicity_witness :
    (runReportPhase [] [.text "partial ", .errorE (some "boom")] ""
       = ([.textEv "partial "], .error "boom")
     ∧ hasDoneEvent (runReportPhase [] [.text "partial ", .errorE (some "boom")] "").1
         = false)
    ∧ runReportPhase [] [.text "a", .text "b"] ""
       = ([.textEv "a", .textEv "b", .doneEv "ab" none], .ok ()) := by
  constructor
  · have h := report_error_atomicity.1 [] [.text "partial "] [] (some "boom") (by rfl)
    exact ⟨h.1, h.2⟩
  · have h := report_error_atomicity.2 [] [.text "a", .text "b"] (by rfl)
    rw [h]
    rfl

/-! ## C8 — all-steps-failed fallback -/

theorem collectPhase_no_outputs (events : List OutEvent)
    (h : noNonemptyStepOutput events = true) : (collectPhase events).2 = [] := by
  induction events with
  | nil => rfl
  | cons e rest ih =>
      cases e with
      | stepOutput n c =>
          simp only [noNonemptyStepOutput, List.all_cons, Bool.and_eq_true,
            beq_iff_eq] at h
          have hc : c = "" := h.1
          have hr := ih (by simp [noNonemptyStepOutput, h.2])
          simp [collectPhase, hc, hr]
      | workflowCompletedEv c => rfl
      | researchStep a b t st d er =>
          have hr := ih (by simpa [noNonemptyStepOutput] using h)
          simp [collectPhase, hr]
      | stepContent n c =>
          have hr := ih (by simpa [noNonemptyStepOutput] using h)
          simp [collectPhase, hr]
      | toolCall i nm ar st tot =>
          have hr := ih (by simpa [noNonemptyStepOutput] using h)
          simp [collectPhase, hr]
      | toolResult i nm st d o er stn tot =>
          have hr := ih (by simpa [noNonemptyStepOutput] using h)
          simp [collectPhase, hr]
      | textEv c =>
          have hr := ih (by simpa [noNonemptyStepOutput] using h)
          simp [collectPhase, hr]
      | doneEv c so =>
          have hr := ih (by simpa [noNonemptyStepOutput] using h)
          simp [collectPhase, hr]
      | errorEv er =>
          have hr := ih (by simpa [noNonemptyStepOutput] using h)
          simp [collectPhase, hr]

/-- C8: when no step contributes a non-empty output (in particular when every
step errors), the report phase still runs and the findings list used to build
the report prompt is exactly `["No step outputs available"]`. -/
theorem all_steps_failed_fallback (events : List OutEvent)
    (planMeta : List (String × JValue)) (question : Option String)
    (finalSources : List (JValue × JValue)) (researchType : String)
    (h : noNonemptyStepOutput events = true) :
    (collectPhase events).2 = []
    ∧ findingsForReport (collectPhase events).2 = ["No step outputs available"]
    ∧ reportPromptFor planMeta question (collectPhase events).2 finalSources
        researchType
      = build_final_report_prompt planMeta question ["No step outputs available"]
          (build_sources_list finalSources) researchType := by
  have h0 := collectPhase_no_outputs events h
  refine ⟨h0, ?_, ?_⟩
  · rw [h0]; rfl
  · simp only [reportPromptFor]
    rw [h0]
    rfl

/-- C8 witness: a run whose only step output is empty still produces the
fallback findings list. -/
theorem all_steps_failed_fallback_witness :
    findingsForReport
        (collectPhase [.researchStep 1 2 "t" "running" none none,
          .stepOutput 1 "", .workflowCompletedEv ""]).2
      = ["No step outputs available"] :=
  (all_steps_failed_fallback
    [.researchStep 1 2 "t" "running" none none, .stepOutput 1 "",
     .workflowCompletedEv ""] [] none [] "general" (by rfl)).2.1

/-! ## C1 — step errors and the outbound stream -/

theorem hasError_stepContent_map (n : Nat) (l : List String) :
    hasErrorResearchStep (l.map (OutEvent.stepContent n)) = false := by
  induction l with
  | nil => rfl
  | cons c rest ih =>
      simp only [List.map_cons, hasErrorResearchStep, List.any_cons,
        Bool.false_or] at ih ⊢
      exact ih

theorem procEvent_no_error_status (p : WfParams) (s : WfState) (now : Nat)
    (ev : WfEvent) (s' : WfState) (outs : List OutEvent)
    (h : procEvent p s now ev = .ok (s', outs)) :
    hasErrorResearchStep outs = false := by
  cases ev with
  | parallelStarted =>
      simp only [procEvent, Except.ok.injEq, Prod.mk.injEq] at h
      rw [← h.2]; rfl
  | parallelCompleted =>
      simp only [procEvent, Except.ok.injEq, Prod.mk.injEq] at h
      rw [← h.2]; rfl
  | other tag =>
      simp only [procEvent, Except.ok.injEq, Prod.mk.injEq] at h
      rw [← h.2]; rfl
  | workflowCompleted content =>
      simp only [procEvent, Except.ok.injEq, Prod.mk.injEq] at h
      rw [← h.2]; rfl
  | stepStarted stepName stepIndex =>
      simp only [procEvent, Except.ok.injEq, Prod.mk.injEq] at h
      rw [← h.2]; rfl
  | runContent content =>
      simp only [procEvent] at h
      split at h <;>
        (simp only [Except.ok.injEq, Prod.mk.injEq] at h; rw [← h.2]; rfl)
  | stepCompleted stepName stepIndex outputObj content =>
      simp only [procEvent, Except.ok.injEq, Prod.mk.injEq] at h
      rw [← h.2]
      simp only [hasErrorResearchStep, List.any_append, Bool.or_eq_false_iff]
      refine ⟨⟨?_, rfl⟩, ?_⟩
      · have hmap := hasError_stepContent_map
          (match dlookup stepName s.activeStepsInfo with
           | some info => info.number
           | none => pyOrOptNat s.currentStepNumber 1)
          (((dlookup stepName s.activeStepsInfo).map StepInfo.content).getD [])
        simpa [hasErrorResearchStep] using hmap
      · split <;> rfl
  | toolCallStarted sn tid name args =>
      simp only [procEvent, Except.ok.injEq, Prod.mk.injEq] at h
      rw [← h.2]; rfl
  | toolCallCompleted sn tid name result err =>
      simp only [procEvent] at h
      split at h
      · exact absurd h (by simp)
      · simp only [Except.ok.injEq, Prod.mk.injEq] at h
        rw [← h.2]; rfl

theorem procEvents_no_error_status (p : WfParams) :
    ∀ (events : List (Nat × WfEvent)) (s : WfState),
    hasErrorResearchStep (procEvents p s events).1 = false := by
  intro events
  induction events with
  | nil => intro s; rfl
  | cons te rest ih =>
      intro s
      obtain ⟨now, ev⟩ := te
      simp only [procEvents]
      cases hpe : procEvent p s now ev with
      | error e => rfl
      | ok pr =>
          obtain ⟨s2, outs⟩ := pr
          have houts := procEvent_no_error_status p s now ev s2 outs hpe
          have hrest := ih s2
          simp only [hasErrorResearchStep, List.any_append, Bool.or_eq_false_iff]
          simp only [hasErrorResearchStep] at houts hrest
          exact ⟨houts, hrest⟩

/-- C1 (amended): the workflow event translator never emits a `research_step`
event with status `"error"` — for every incoming event stream the emitted
statuses are only `"running"` and `"done"`, and no error text is attached to
any `research_step` event; workflow events of kinds the dispatch chain does
not recognize (the only way a runtime step failure could surface in it) are
skipped without emitting anything and without stopping the processing of the
remaining events, so sibling steps' events and the terminal
`workflow_completed` are still produced. -/
theorem step_errors_never_reported :
    (∀ (p : WfParams) (s : WfState) (events : List (Nat × WfEvent)),
       hasErrorResearchStep (streamResearchWorkflow p s events) = false)
    ∧ (∀ (p : WfParams) (s : WfState) (now : Nat) (tag : String),
       procEvent p s now (.other tag) = .ok (s, []))
    ∧ (∀ (p : WfParams) (s : WfState) (now : Nat) (tag : String)
         (rest : List (Nat × WfEvent)),
       procEvents p s ((now, .other tag) :: rest) = procEvents p s rest) := by
  refine ⟨?_, fun p s now tag => rfl, ?_⟩
  · intro p s events
    have hp := procEvents_no_error_status p events s
    unfold streamResearchWorkflow
    cases hr : procEvents p s events with
    | mk outs r =>
        rw [hr] at hp
        cases r with
        | ok s2 =>
            simp only [hasErrorResearchStep, List.any_append,
              Bool.or_eq_false_iff]
            simp only [hasErrorResearchStep] at hp
            exact ⟨hp, rfl⟩
        | error e =>
            exact hp
  · intro p s now tag rest
    simp [procEvents, procEvent]

/-- C1 counterexample: a run in which step 1 fails (the runtime reports the
failure with an event the dispatcher does not recognize, and step 1 never
completes) produces no `research_step` event with status `"error"` and no
error text at all — refuting the claimed error reporting — while the sibling
step 2 still runs to completion and the stream still terminates. -/
theorem step_error_event_counterexample :
    streamResearchWorkflow cxParams initWfState
        [(0, .stepStarted "Step 1: a" (some 0)),
         (1, .other "StepError"),
         (2, .stepStarted "Step 2: b" (some 1)),
         (3, .stepCompleted "Step 2: b" (some 1) (some "out2") ""),
         (4, .workflowCompleted "")]
      = [.researchStep 1 2 "Step 1: a" "running" none none,
         .researchStep 2 2 "Step 2: b" "running" none none,
         .researchStep 2 2 "Step 2: b" "done" (some 1) none,
         .stepOutput 2 "out2",
         .workflowCompletedEv "",
         .workflowCompletedEv ""]
    ∧ hasErrorResearchStep
        (streamResearchWorkflow cxParams initWfState
          [(0, .stepStarted "Step 1: a" (some 0)),
           (1, .other "StepError"),
           (2, .stepStarted "Step 2: b" (some 1)),
           (3, .stepCompleted "Step 2: b" (some 1) (some "out2") ""),
           (4, .workflowCompleted "")]) = false := by
  constructor <;> rfl

/-! ## C4 — tool-call start disambiguation -/

/-- C4: on a `ToolCallStarted` event the handler mints a fresh identifier of
the form `toolName + "_" + uuid-draw` (the next draw of the supply — in
particular the emitted id never depends on the external identifier, which
only selects the mapping key), stores `external_id → unique_id` in the map
scoped to the chosen target step leaving every other step's scoped map
untouched (and stores nothing in any global map when there is no target
step), advances the draw index so no two events share a draw, and the
outbound `tool_call` event carries the minted id and the owning step's
display number; distinct draws of the fixed 8-character `uuid4().hex[:8]`
shape yield distinct identifiers even across different tool names. -/
theorem tool_call_start_disambiguation :
    (∀ (p : WfParams) (s : WfState) (now : Nat) (sn tid : Option String)
       (name : String) (args : JValue),
       procEvent p s now (.toolCallStarted sn tid name args)
         = .ok ({ s with
                  stepToolMappings :=
                    startMappings s sn (pyKeyOfId tid)
                      (mintToolId name (p.uuidHex s.uuidIdx)),
                  activeToolCalls :=
                    dinsert (mintToolId name (p.uuidHex s.uuidIdx)) now
                      s.activeToolCalls,
                  uuidIdx := s.uuidIdx + 1 },
               [.toolCall (mintToolId name (p.uuidHex s.uuidIdx)) name
                  (formatToolArgs args) (toolCallStartStepNum s sn) p.totalSteps]))
    ∧ (∀ (s : WfState) (sn : Option String) (key uid tgt : String),
        chooseTargetStep s.activeStepsInfo sn = some tgt → tgt ≠ "" →
        dlookup key ((dlookup tgt (startMappings s sn key uid)).getD []) = some uid
        ∧ (∀ other, other ≠ tgt →
            dlookup other (startMappings s sn key uid)
              = dlookup other s.stepToolMappings))
    ∧ (∀ (s : WfState) (sn : Option String) (key uid : String),
        chooseTargetStep s.activeStepsInfo sn = none →
        startMappings s sn key uid = s.stepToolMappings)
    ∧ (∀ (n1 n2 a b : String), a.length = 8 → b.length = 8 → a ≠ b →
        mintToolId n1 a ≠ mintToolId n2 b) := by
  refine ⟨fun p s now sn tid name args => rfl, ?_, ?_, ?_⟩
  · intro s sn key uid tgt h1 h2
    constructor
    · simp [startMappings, h1, h2, storeMapping, dlookup_dinsert_self]
    · intro other hne
      simp [startMappings, h1, h2, storeMapping, dlookup_dinsert_ne _ _ _ _ hne]
  · intro s sn key uid h
    simp [startMappings, h]
  · intro n1 n2 a b ha hb hne h
    have hd := congrArg String.data h
    simp only [mintToolId, String.data_append] at hd
    have hlen : a.data.length = b.data.length := by
      have ha' : a.data.length = 8 := ha
      have hb' : b.data.length = 8 := hb
      rw [ha', hb']
    have hinj := List.append_inj' hd hlen
    exact hne (String.ext hinj.2)

/-- C4 witness: with one active step `S1`, a started call with external id
`call_0` stores the minted id in `S1`'s scoped map only, and ids minted from
distinct 8-character draws differ even across tool names. -/
theorem tool_call_start_disambiguation_witness :
    dlookup "call_0"
        ((dlookup "S1" (startMappings wit4State (some "S1") "call_0"
          "search_aaaa1111")).getD []) = some "search_aaaa1111"
    ∧ dlookup "S2" (startMappings wit4State (some "S1") "call_0" "search_aaaa1111")
        = dlookup "S2" wit4State.stepToolMappings
    ∧ mintToolId "search" "aaaaaaaa" ≠ mintToolId "browse" "bbbbbbbb" := by
  have h := tool_call_start_disambiguation.2.1 wit4State (some "S1") "call_0"
    "search_aaaa1111" "S1" (by rfl) (by decide)
  exact ⟨h.1, h.2 "S2" (by decide),
    tool_call_start_disambiguation.2.2.2 "search" "browse" "aaaaaaaa" "bbbbbbbb"
      (by decide) (by decide) (by decide)⟩

/-! ## C5 — tool-call completion resolution -/

/-- C5 counterexample: step `A`'s scoped map no longer holds `call_0` while
step `B`'s still does.  A completion attributed to `A` resolves — per the
claim — by scanning the most-recently-active step's map, or as a last resort
to a fresh `fallback_`-prefixed id.  The code instead returns the raw
external id `call_0`: no scan happens once the owning step's map exists, and
the last resort is the raw id, not a `fallback_` mint (so the whole handler,
run on this state, emits a `tool_result` whose id is `call_0`). -/
theorem tool_call_completion_claim_counterexample :
    resolveToolCall [("A", []), ("B", [("call_0", "search_b1")])] (some "A") "call_0"
      = (none, some "A")
    ∧ completedUniqueId cxParams cx5State (some "A") (some "call_0") = ("call_0", 0)
    ∧ procEvent cxParams cx5State 9
        (.toolCallCompleted (some "A") (some "call_0") "search" (.obj []) none)
      = .ok (cx5State, [.toolResult "call_0" "search" "done" none none none 1 2])
    ∧ "call_0" ≠ "search_b1"
    ∧ ("fallback_".data.isPrefixOf "call_0".data) = false := by
  refine ⟨rfl, rfl, rfl, by decide, by decide⟩

/-- C5 (amended): completion resolution looks the external id up in the
event's own step's scoped map when that step name is truthy and has a map —
and in that case never consults any other step's map, so with both steps
holding the same external id a completion attributed to step A resolves to
A's entry, never B's; only when the event carries no usable step name does it
scan all scoped maps in reverse insertion order; when resolution fails, the
outbound id falls back to the raw external id when that is truthy, and a
fresh `fallback_`-prefixed id is minted only when the external id itself is
missing or empty; after a resolution that found an entry, that entry is
deleted from the found step's scoped map. -/
theorem tool_call_completion_resolution :
    (∀ (mappings : List (String × List (String × String)))
       (sn : String) (m : List (String × String)) (key uid : String),
       sn ≠ "" → dlookup sn mappings = some m → dlookup key m = some uid →
       resolveToolCall mappings (some sn) key = (some uid, some sn))
    ∧ (∀ (mappings : List (String × List (String × String)))
         (sn : String) (m : List (String × String)) (key : String),
       sn ≠ "" → dlookup sn mappings = some m → dlookup key m = none →
       resolveToolCall mappings (some sn) key = (none, some sn))
    ∧ (∀ (mappings : List (String × List (String × String))) (key : String),
       resolveToolCall mappings none key = scanMappings key mappings.reverse)
    ∧ (∀ (mappings : List (String × List (String × String))) (sn key : String),
       sn = "" ∨ dlookup sn mappings = none →
       resolveToolCall mappings (some sn) key = scanMappings key mappings.reverse)
    ∧ (∀ (p : WfParams) (s : WfState) (sn tid : Option String),
       optStrTruthy (resolveToolCall s.stepToolMappings sn (pyKeyOfId tid)).1 = false →
       completedUniqueId p s sn tid
         = (match tid with
            | some o =>
                if o ≠ "" then (o, s.uuidIdx)
                else ("fallback_" ++ p.uuidHex s.uuidIdx, s.uuidIdx + 1)
            | none => ("fallback_" ++ p.uuidHex s.uuidIdx, s.uuidIdx + 1)))
    ∧ (∀ (mappings : List (String × List (String × String)))
         (f : String) (m : List (String × String)) (key : String),
       f ≠ "" → dlookup f mappings = some m → dmem key m = true →
       deleteResolvedMapping mappings (some f) key = dinsert f (ddel key m) mappings) := by
  refine ⟨?_, ?_, fun mappings key => rfl, ?_, ?_, ?_⟩
  · intro mappings sn m key uid hsn hm hk
    simp [resolveToolCall, dmem, hm, hsn, hk]
  · intro mappings sn m key hsn hm hk
    simp [resolveToolCall, dmem, hm, hsn, hk]
  · intro mappings sn key h
    rcases h with h | h
    · simp [resolveToolCall, h]
    · simp [resolveToolCall, dmem, h]
  · intro p s sn tid h
    simp only [completedUniqueId, h, Bool.false_eq_true, if_false]
  · intro mappings f m key hf hm hk
    have h1 : dmem f mappings = true := by simp [dmem, hm]
    simp [deleteResolvedMapping, hm, hf, h1, hk]

/-- C5 witness: with steps `A` and `B` both holding external id `call_0`, a
completion attributed to `A` resolves to `A`'s minted id (never `B`'s), and
the resolved entry is deleted from `A`'s scoped map afterwards. -/
theorem tool_call_completion_resolution_witness :
    resolveToolCall [("A", [("call_0", "search_a0")]), ("B", [("call_0", "search_b0")])]
        (some "A") "call_0" = (some "search_a0", some "A")
    ∧ deleteResolvedMapping
        [("A", [("call_0", "search_a0")]), ("B", [("call_0", "search_b0")])]
        (some "A") "call_0"
      = [("A", []), ("B", [("call_0", "search_b0")])]
    ∧ completedUniqueId cxParams cx5State none (some "call_9") = ("call_9", 0) := by
  refine ⟨tool_call_completion_resolution.1
      [("A", [("call_0", "search_a0")]), ("B", [("call_0", "search_b0")])]
      "A" [("call_0", "search_a0")] "call_0" "search_a0" (by decide) (by rfl) (by rfl),
    ?_, ?_⟩
  · have h := tool_call_completion_resolution.2.2.2.2.2
      [("A", [("call_0", "search_a0")]), ("B", [("call_0", "search_b0")])]
      "A" [("call_0", "search_a0")] "call_0" (by decide) (by rfl) (by rfl)
    rw [h]
    rfl
  · exact tool_call_completion_resolution.2.2.2.2.1 cxParams cx5State none
      (some "call_9") (by rfl)

end Qurio
